import Mathlib

/-!
Shallow embedding of the charity-management CRUD server.

The server exposes create/getAll/getById/update/delete handlers for five
entities (User, Category, Product, Order, OrderItem) over a relational
store.  Handlers live in `src/server/src/handlers` and
`src/unnamed/part_002` / `src/unnamed/part_003`; the zod input shapes live
in `src/server/src/schema.ts`.

Modelling conventions:
  * JavaScript numbers that carry ids and counts are embedded as `Nat`;
    currency values are embedded as `ℚ` restricted to exact decimal
    rationals (every finite double is such a rational).
  * The storage engine persists currency columns as text; the JS
    `toString` / `parseFloat` codec pair is modelled by `jsToString` /
    `parseFloatQ` below.
  * Timestamps are `Nat` ticks supplied by the caller as `now`; the
    hypothesis `DB.timesLt db now` states that the wall clock strictly
    advanced since every stored timestamp was taken.
  * `undefined` vs `null` for the nullable-and-optional zod fields is
    embedded as `Option (Option _)`: the outer layer is "present in the
    input", the inner layer is "non-null".
  * Fallible handlers return `Except String`, the string being the thrown
    `Error` message.
-/

namespace CrudModel

/-! ### The numeric-as-text codec

`Number.prototype.toString` restricted to exact decimal values, and
`parseFloat` on the strings that codec produces. -/

/-- The character for a single decimal digit (`0 ↦ '0'`, ..., `9 ↦ '9'`). -/
def digitToChar (d : Nat) : Char := Char.ofNat (48 + d)

/-- Inverse of `digitToChar` on digit characters. -/
def charToDigit (c : Char) : Nat := c.toNat - 48

/-- Big-endian digit expansion of `m`, exactly `k` digits wide
(leading zeros are kept, which prints fraction parts such as `.01`). -/
def natDigitsBE : Nat → Nat → List Nat
  | 0, _ => []
  | k + 1, m => (m / 10 ^ k) :: natDigitsBE k (m % 10 ^ k)

/-- The value denoted by a big-endian digit list. -/
def ofDigitsBE (l : List Nat) : Nat := l.foldl (fun a d => 10 * a + d) 0

/-- Fuel-driven digit counter (structural recursion so that concrete
witness values reduce inside the kernel). -/
def numDigitsF : Nat → Nat → Nat
  | 0, _ => 1
  | fuel + 1, n => if n < 10 then 1 else numDigitsF fuel (n / 10) + 1

/-- Number of decimal digits JS prints for a natural number
(no leading zeros; `0` prints as "0"). -/
def numDigits (n : Nat) : Nat := numDigitsF n n

/-- Character list printed for the exact decimal value `M / 10 ^ k`:
the integer part without leading zeros, then, when `k > 0`, a dot and
exactly `k` fraction digits. -/
def printNatDec (M k : Nat) : List Char :=
  if k = 0 then (natDigitsBE (numDigits M) M).map digitToChar
  else
    (natDigitsBE (numDigits (M / 10 ^ k)) (M / 10 ^ k)).map digitToChar
      ++ '.' :: (natDigitsBE k (M % 10 ^ k)).map digitToChar

/-- Least `k` with `d ∣ 10 ^ k`, when one exists.  For the reduced
denominator of a finite double such a `k` always exists (the denominator
is a power of two). -/
def decExp (d : Nat) : Option Nat :=
  (List.range (d + 1)).find? (fun k => 10 ^ k % d == 0)

/-- Model of JavaScript `Number.prototype.toString` on exact decimal
rationals: print the value `num / den` as a signed decimal numeral.
Outside the decimal fragment (never reached by values of double
provenance) the model returns `""`. -/
def jsToString (q : ℚ) : String :=
  match decExp q.den with
  | some k =>
      let M := q.num.natAbs * 10 ^ k / q.den
      if q.num < 0 then ⟨'-' :: printNatDec M k⟩ else ⟨printNatDec M k⟩
  | none => ""

/-- Value of a digit-character list, most significant first. -/
def parseDigits (l : List Char) : Nat := ofDigitsBE (l.map charToDigit)

/-- Split a character list at the first `'.'` (the dot is dropped). -/
def splitAtDot : List Char → List Char × List Char
  | [] => ([], [])
  | c :: rest =>
      if c = '.' then ([], rest)
      else
        let p := splitAtDot rest
        (c :: p.1, p.2)

/-- Value of an unsigned decimal numeral: integer part scaled past the
fraction digits plus the fraction part, over the matching power of ten
(built with `mkRat` so that concrete values reduce in the kernel). -/
def parsePos (l : List Char) : ℚ :=
  mkRat (parseDigits (splitAtDot l).1 * 10 ^ (splitAtDot l).2.length
      + parseDigits (splitAtDot l).2)
    (10 ^ (splitAtDot l).2.length)

/-- Model of JavaScript `parseFloat` on the decimal numerals produced by
`jsToString` (a leading `-` negates the numerator). -/
def parseFloatQ (s : String) : ℚ :=
  match s.data with
  | [] => 0
  | c :: l =>
      if c = '-' then
        mkRat (-(parseDigits (splitAtDot l).1 * 10 ^ (splitAtDot l).2.length
            + parseDigits (splitAtDot l).2 : Int))
          (10 ^ (splitAtDot l).2.length)
      else parsePos (c :: l)

/-! ### Entity enums (schema.ts `userRoleSchema`, `orderStatusSchema`) -/

inductive Role where
  | admin | user | guest
deriving Repr, DecidableEq

inductive OrderStatus where
  | pending | processing | shipped | delivered | cancelled
deriving Repr, DecidableEq

/-! ### Stored rows (drizzle tables; currency columns are text) -/

structure UserRow where
  id : Nat
  name : String
  email : String
  role : Role
  is_active : Bool
  created_at : Nat
  updated_at : Nat
deriving Repr, DecidableEq

structure CategoryRow where
  id : Nat
  name : String
  description : Option String
  is_active : Bool
  created_at : Nat
  updated_at : Nat
deriving Repr, DecidableEq

structure ProductRow where
  id : Nat
  name : String
  description : Option String
  price : String
  stock_quantity : Nat
  category_id : Option Nat
  is_active : Bool
  created_at : Nat
  updated_at : Nat
deriving Repr, DecidableEq

structure OrderRow where
  id : Nat
  user_id : Nat
  status : OrderStatus
  total_amount : String
  notes : Option String
  created_at : Nat
  updated_at : Nat
deriving Repr, DecidableEq

structure OrderItemRow where
  id : Nat
  order_id : Nat
  product_id : Nat
  quantity : Nat
  unit_price : String
  subtotal : String
  created_at : Nat
deriving Repr, DecidableEq

/-! ### API records (schema.ts entity schemas; currency fields numeric) -/

structure Product where
  id : Nat
  name : String
  description : Option String
  price : ℚ
  stock_quantity : Nat
  category_id : Option Nat
  is_active : Bool
  created_at : Nat
  updated_at : Nat
deriving Repr, DecidableEq

structure Order where
  id : Nat
  user_id : Nat
  status : OrderStatus
  total_amount : ℚ
  notes : Option String
  created_at : Nat
  updated_at : Nat
deriving Repr, DecidableEq

structure OrderItem where
  id : Nat
  order_id : Nat
  product_id : Nat
  quantity : Nat
  unit_price : ℚ
  subtotal : ℚ
  created_at : Nat
deriving Repr, DecidableEq

/-! ### Input shapes (schema.ts create/update input schemas) -/

structure CreateUserInput where
  name : String
  email : String
  role : Option Role
  is_active : Option Bool
deriving Repr, DecidableEq

structure UpdateUserInput where
  id : Nat
  name : Option String
  email : Option String
  role : Option Role
  is_active : Option Bool
deriving Repr, DecidableEq

structure CreateCategoryInput where
  name : String
  description : Option (Option String)
  is_active : Option Bool
deriving Repr, DecidableEq

structure UpdateCategoryInput where
  id : Nat
  name : Option String
  description : Option (Option String)
  is_active : Option Bool
deriving Repr, DecidableEq

structure CreateProductInput where
  name : String
  description : Option (Option String)
  price : ℚ
  stock_quantity : Option Nat
  category_id : Option (Option Nat)
  is_active : Option Bool
deriving Repr, DecidableEq

structure UpdateProductInput where
  id : Nat
  name : Option String
  description : Option (Option String)
  price : Option ℚ
  stock_quantity : Option Nat
  category_id : Option (Option Nat)
  is_active : Option Bool
deriving Repr, DecidableEq

structure CreateOrderInput where
  user_id : Nat
  status : Option OrderStatus
  total_amount : ℚ
  notes : Option (Option String)
deriving Repr, DecidableEq

structure UpdateOrderInput where
  id : Nat
  user_id : Option Nat
  status : Option OrderStatus
  total_amount : Option ℚ
  notes : Option (Option String)
deriving Repr, DecidableEq

structure CreateOrderItemInput where
  order_id : Nat
  product_id : Nat
  quantity : Nat
  unit_price : ℚ
  subtotal : ℚ
deriving Repr, DecidableEq

structure UpdateOrderItemInput where
  id : Nat
  order_id : Option Nat
  product_id : Option Nat
  quantity : Option Nat
  unit_price : Option ℚ
  subtotal : Option ℚ
deriving Repr, DecidableEq

structure GetByIdInput where
  id : Nat
deriving Repr, DecidableEq

structure DeleteInput where
  id : Nat
deriving Repr, DecidableEq

structure DeleteResult where
  success : Bool
deriving Repr, DecidableEq

/-! ### The database state

Modelled from the spec: the storage engine (db/schema.ts is not under
src/) provides per-table auto-incrementing integer identity keys,
`defaultNow()` timestamps on `created_at`/`updated_at`, and single-row
insert/select/update/delete preserving insertion order. -/

structure DB where
  users : List UserRow
  categories : List CategoryRow
  products : List ProductRow
  orders : List OrderRow
  orderItems : List OrderItemRow
  nextUserId : Nat
  nextCategoryId : Nat
  nextProductId : Nat
  nextOrderId : Nat
  nextOrderItemId : Nat
deriving Repr, DecidableEq

def emptyDB : DB :=
  { users := [], categories := [], products := [], orders := [], orderItems := []
    nextUserId := 1, nextCategoryId := 1, nextProductId := 1
    nextOrderId := 1, nextOrderItemId := 1 }

/-- Modelled from the spec: `SELECT ... WHERE id = i` returns the stored
rows whose identity key equals `i`, in insertion order. -/
def selectById (getId : α → Nat) (i : Nat) (rows : List α) : List α :=
  rows.filter (fun r => getId r == i)

/-- Modelled from the spec: `UPDATE ... SET ... WHERE id = i RETURNING *`:
first component is the new table contents, second the updated versions of
the matching rows (the `RETURNING` result). -/
def updateWhereId (getId : α → Nat) (i : Nat) (f : α → α) (rows : List α) :
    List α × List α :=
  (rows.map (fun r => if getId r == i then f r else r),
   (rows.filter (fun r => getId r == i)).map f)

/-- Modelled from the spec: `DELETE ... WHERE id = i RETURNING *`:
first component is the new table contents, second the deleted rows. -/
def deleteWhereId (getId : α → Nat) (i : Nat) (rows : List α) :
    List α × List α :=
  (rows.filter (fun r => getId r != i), rows.filter (fun r => getId r == i))

/-- JS `x || null` on an optional nullable string input: `undefined`,
`null` and the falsy `""` all persist as `null`. -/
def jsOrNullStr : Option (Option String) → Option String
  | some (some s) => if s = "" then none else some s
  | _ => none

/-- JS `x || null` on an optional nullable number input: `undefined`,
`null` and the falsy `0` all persist as `null`. -/
def jsOrNullNat : Option (Option Nat) → Option Nat
  | some (some n) => if n = 0 then none else some n
  | _ => none

/-! ### User handlers (src/unnamed/part_002, db-backed implementation) -/

/-- The row the insert writes for `createUser`: defaults
`role || 'user'` and `is_active ?? true`; id and timestamps are
storage-generated. -/
def insertedUser (now : Nat) (input : CreateUserInput) (db : DB) : UserRow :=
  { id := db.nextUserId
    name := input.name
    email := input.email
    role := input.role.getD Role.user
    is_active := input.is_active.getD true
    created_at := now
    updated_at := now }

/-- `createUser`: insert the defaulted row and return it. -/
def createUser (now : Nat) (input : CreateUserInput) (db : DB) : UserRow × DB :=
  (insertedUser now input db,
   { db with users := db.users ++ [insertedUser now input db]
             nextUserId := db.nextUserId + 1 })

/-- `getUsers`: select every row. -/
def getUsers (db : DB) : List UserRow := db.users

/-- `getUserById`: `result[0] || null`. -/
def getUserById (input : GetByIdInput) (db : DB) : Option UserRow :=
  (selectById (·.id) input.id db.users).head?

/-- The update patch `updateUser` builds: only provided fields, plus the
unconditional `updated_at` refresh. -/
def userMerge (now : Nat) (input : UpdateUserInput) (r : UserRow) : UserRow :=
  { r with
    updated_at := now
    name := input.name.getD r.name
    email := input.email.getD r.email
    role := input.role.getD r.role
    is_active := input.is_active.getD r.is_active }

/-- `updateUser`: existence pre-check (throws when missing), then apply
only the provided fields, always refreshing `updated_at`, and return
`result[0]`. -/
def updateUser (now : Nat) (input : UpdateUserInput) (db : DB) :
    Except String (UserRow × DB) :=
  match getUserById ⟨input.id⟩ db with
  | none => .error ("User with ID " ++ toString input.id ++ " not found")
  | some _ =>
      match (updateWhereId (·.id) input.id (userMerge now input) db.users).2.head? with
      | some r =>
          .ok (r, { db with
            users := (updateWhereId (·.id) input.id (userMerge now input) db.users).1 })
      | none => .error "undefined"

/-- `deleteUser`: existence pre-check (throws when missing), then delete
and report `success: true`. -/
def deleteUser (input : DeleteInput) (db : DB) :
    Except String (DeleteResult × DB) :=
  match getUserById ⟨input.id⟩ db with
  | none => .error ("User with ID " ++ toString input.id ++ " not found")
  | some _ =>
      .ok ({ success := true },
        { db with users := (deleteWhereId (·.id) input.id db.users).1 })

/-! ### Category handlers (src/unnamed/part_003, db-backed implementation) -/

/-- The row the insert writes for `createCategory`:
`description || null` and `is_active ?? true`. -/
def insertedCategory (now : Nat) (input : CreateCategoryInput) (db : DB) :
    CategoryRow :=
  { id := db.nextCategoryId
    name := input.name
    description := jsOrNullStr input.description
    is_active := input.is_active.getD true
    created_at := now
    updated_at := now }

/-- `createCategory`: insert the defaulted row and return it. -/
def createCategory (now : Nat) (input : CreateCategoryInput) (db : DB) :
    CategoryRow × DB :=
  (insertedCategory now input db,
   { db with categories := db.categories ++ [insertedCategory now input db]
             nextCategoryId := db.nextCategoryId + 1 })

/-- `getCategories`: select every row. -/
def getCategories (db : DB) : List CategoryRow := db.categories

/-- `getCategoryById`: `result.length > 0 ? result[0] : null`. -/
def getCategoryById (input : GetByIdInput) (db : DB) : Option CategoryRow :=
  (selectById (·.id) input.id db.categories).head?

/-- The update patch `updateCategory` builds: only provided fields, plus
the unconditional `updated_at` refresh.  A provided `description` is
applied verbatim (an empty string stays an empty string). -/
def categoryMerge (now : Nat) (input : UpdateCategoryInput) (r : CategoryRow) :
    CategoryRow :=
  { r with
    name := input.name.getD r.name
    description := input.description.getD r.description
    is_active := input.is_active.getD r.is_active
    updated_at := now }

/-- `updateCategory`: apply only the provided fields, always refreshing
`updated_at`; throws after the update when no row matched. -/
def updateCategory (now : Nat) (input : UpdateCategoryInput) (db : DB) :
    Except String (CategoryRow × DB) :=
  match (updateWhereId (·.id) input.id (categoryMerge now input) db.categories).2.head? with
  | none => .error ("Category with ID " ++ toString input.id ++ " not found")
  | some r =>
      .ok (r, { db with
        categories := (updateWhereId (·.id) input.id (categoryMerge now input) db.categories).1 })

/-- `deleteCategory`: delete with `RETURNING`, success flag is
`result.length > 0`. -/
def deleteCategory (input : DeleteInput) (db : DB) : DeleteResult × DB :=
  ({ success := !(deleteWhereId (·.id) input.id db.categories).2.isEmpty },
   { db with categories := (deleteWhereId (·.id) input.id db.categories).1 })

/-! ### Product handlers (src/server/src/handlers/categories.ts,
db-backed implementation) -/

/-- Numeric coercion a read path applies to a stored product row:
`parseFloat(product.price)`. -/
def coerceProduct (r : ProductRow) : Product :=
  { id := r.id, name := r.name, description := r.description
    price := parseFloatQ r.price, stock_quantity := r.stock_quantity
    category_id := r.category_id, is_active := r.is_active
    created_at := r.created_at, updated_at := r.updated_at }

/-- The row the insert writes for `createProduct`:
`description || null`, `price.toString()`, `stock_quantity ?? 0`,
`category_id || null`, `is_active ?? true`. -/
def insertedProduct (now : Nat) (input : CreateProductInput) (db : DB) :
    ProductRow :=
  { id := db.nextProductId
    name := input.name
    description := jsOrNullStr input.description
    price := jsToString input.price
    stock_quantity := input.stock_quantity.getD 0
    category_id := jsOrNullNat input.category_id
    is_active := input.is_active.getD true
    created_at := now
    updated_at := now }

/-- `createProduct`: insert the defaulted row; the returned record
re-parses the stored price text. -/
def createProduct (now : Nat) (input : CreateProductInput) (db : DB) :
    Product × DB :=
  (coerceProduct (insertedProduct now input db),
   { db with products := db.products ++ [insertedProduct now input db]
             nextProductId := db.nextProductId + 1 })

/-- `getProducts`: select every row, coercing the price on each. -/
def getProducts (db : DB) : List Product := db.products.map coerceProduct

/-- `getProductById`: select by id, `null` when absent, price coerced. -/
def getProductById (input : GetByIdInput) (db : DB) : Option Product :=
  (selectById (·.id) input.id db.products).head?.map coerceProduct

/-- The update patch `updateProduct` builds: only provided fields (a
provided `price` is re-encoded as text), plus the unconditional
`updated_at` refresh.  A provided `category_id` is applied verbatim with
no referential check. -/
def productMerge (now : Nat) (input : UpdateProductInput) (r : ProductRow) :
    ProductRow :=
  { r with
    name := input.name.getD r.name
    description := input.description.getD r.description
    price := (input.price.map jsToString).getD r.price
    stock_quantity := input.stock_quantity.getD r.stock_quantity
    category_id := input.category_id.getD r.category_id
    is_active := input.is_active.getD r.is_active
    updated_at := now }

/-- `updateProduct`: apply only the provided fields (no referential check
on `category_id`), always refreshing `updated_at`; throws after the
update when no row matched. -/
def updateProduct (now : Nat) (input : UpdateProductInput) (db : DB) :
    Except String (Product × DB) :=
  match (updateWhereId (·.id) input.id (productMerge now input) db.products).2.head? with
  | none => .error ("Product with ID " ++ toString input.id ++ " not found")
  | some r =>
      .ok (coerceProduct r, { db with
        products := (updateWhereId (·.id) input.id (productMerge now input) db.products).1 })

/-- `deleteProduct`: delete with `RETURNING`, success flag is
`results.length > 0`. -/
def deleteProduct (input : DeleteInput) (db : DB) : DeleteResult × DB :=
  ({ success := !(deleteWhereId (·.id) input.id db.products).2.isEmpty },
   { db with products := (deleteWhereId (·.id) input.id db.products).1 })

/-! ### Order handlers (src/unnamed/part_003, db-backed implementation) -/

/-- Numeric coercion a read path applies to a stored order row:
`parseFloat(order.total_amount)`. -/
def coerceOrder (r : OrderRow) : Order :=
  { id := r.id, user_id := r.user_id, status := r.status
    total_amount := parseFloatQ r.total_amount, notes := r.notes
    created_at := r.created_at, updated_at := r.updated_at }

/-- The row the insert writes for `createOrder`: `status || 'pending'`,
`total_amount.toString()`, `notes || null`. -/
def insertedOrder (now : Nat) (input : CreateOrderInput) (db : DB) :
    OrderRow :=
  { id := db.nextOrderId
    user_id := input.user_id
    status := input.status.getD OrderStatus.pending
    total_amount := jsToString input.total_amount
    notes := jsOrNullStr input.notes
    created_at := now
    updated_at := now }

/-- `createOrder`: referenced user must exist (throws naming the id
before any insert), then the defaulted row is inserted. -/
def createOrder (now : Nat) (input : CreateOrderInput) (db : DB) :
    Except String (Order × DB) :=
  if (selectById (·.id) input.user_id db.users).isEmpty then
    .error ("User with id " ++ toString input.user_id ++ " not found")
  else
    .ok (coerceOrder (insertedOrder now input db),
         { db with orders := db.orders ++ [insertedOrder now input db]
                   nextOrderId := db.nextOrderId + 1 })

/-- `getOrders`: select every row, coercing the amount on each. -/
def getOrders (db : DB) : List Order := db.orders.map coerceOrder

/-- `getOrderById`: select by id, `null` when absent, amount coerced. -/
def getOrderById (input : GetByIdInput) (db : DB) : Option Order :=
  (selectById (·.id) input.id db.orders).head?.map coerceOrder

/-- The update patch `updateOrder` builds: only provided fields (a
provided `total_amount` re-encoded as text, a provided `notes` applied
verbatim), plus the unconditional `updated_at` refresh. -/
def orderMerge (now : Nat) (input : UpdateOrderInput) (r : OrderRow) :
    OrderRow :=
  { r with
    updated_at := now
    user_id := input.user_id.getD r.user_id
    status := input.status.getD r.status
    total_amount := (input.total_amount.map jsToString).getD r.total_amount
    notes := input.notes.getD r.notes }

/-- The update step of `updateOrder` after the referential check: apply
the patch, throwing after the update when no row matched. -/
def updateOrderGo (now : Nat) (input : UpdateOrderInput) (db : DB) :
    Except String (Order × DB) :=
  match (updateWhereId (·.id) input.id (orderMerge now input) db.orders).2.head? with
  | none => .error ("Order with id " ++ toString input.id ++ " not found")
  | some r =>
      .ok (coerceOrder r, { db with
        orders := (updateWhereId (·.id) input.id (orderMerge now input) db.orders).1 })

/-- `updateOrder`: when `user_id` is provided the referenced user must
exist (throws naming the id), then the update step runs. -/
def updateOrder (now : Nat) (input : UpdateOrderInput) (db : DB) :
    Except String (Order × DB) :=
  match input.user_id with
  | some uid =>
      if (selectById (·.id) uid db.users).isEmpty then
        .error ("User with id " ++ toString uid ++ " not found")
      else updateOrderGo now input db
  | none => updateOrderGo now input db

/-- `deleteOrder`: delete with `RETURNING`, success flag is
`result.length > 0`. -/
def deleteOrder (input : DeleteInput) (db : DB) : DeleteResult × DB :=
  ({ success := !(deleteWhereId (·.id) input.id db.orders).2.isEmpty },
   { db with orders := (deleteWhereId (·.id) input.id db.orders).1 })

/-! ### Order-item handlers (src/server/src/handlers/order-items.ts,
db-backed implementation) -/

/-- Numeric coercion a read path applies to a stored order-item row:
`parseFloat` on `unit_price` and `subtotal`. -/
def coerceOrderItem (r : OrderItemRow) : OrderItem :=
  { id := r.id, order_id := r.order_id, product_id := r.product_id
    quantity := r.quantity
    unit_price := parseFloatQ r.unit_price
    subtotal := parseFloatQ r.subtotal
    created_at := r.created_at }

/-- The row the insert writes for `createOrderItem`: the currency
fields converted to text. -/
def insertedOrderItem (now : Nat) (input : CreateOrderItemInput) (db : DB) :
    OrderItemRow :=
  { id := db.nextOrderItemId
    order_id := input.order_id
    product_id := input.product_id
    quantity := input.quantity
    unit_price := jsToString input.unit_price
    subtotal := jsToString input.subtotal
    created_at := now }

/-- `createOrderItem`: referenced order and product must both exist
(throws naming the id before any insert), then the row is inserted. -/
def createOrderItem (now : Nat) (input : CreateOrderItemInput) (db : DB) :
    Except String (OrderItem × DB) :=
  if (selectById (·.id) input.order_id db.orders).isEmpty then
    .error ("Order with ID " ++ toString input.order_id ++ " does not exist")
  else if (selectById (·.id) input.product_id db.products).isEmpty then
    .error ("Product with ID " ++ toString input.product_id ++ " does not exist")
  else
    .ok (coerceOrderItem (insertedOrderItem now input db),
         { db with orderItems := db.orderItems ++ [insertedOrderItem now input db]
                   nextOrderItemId := db.nextOrderItemId + 1 })

/-- `getOrderItems`: select every row, coercing the currency fields. -/
def getOrderItems (db : DB) : List OrderItem :=
  db.orderItems.map coerceOrderItem

/-- `getOrderItemById`: select by id, `null` when absent, coerced. -/
def getOrderItemById (input : GetByIdInput) (db : DB) : Option OrderItem :=
  (selectById (·.id) input.id db.orderItems).head?.map coerceOrderItem

/-- `getOrderItemsByOrderId`: select by `order_id`, coerced. -/
def getOrderItemsByOrderId (input : GetByIdInput) (db : DB) : List OrderItem :=
  (db.orderItems.filter (fun r => r.order_id == input.id)).map coerceOrderItem

/-- The update patch `updateOrderItem` builds: only provided fields
(provided currency values re-encoded as text); the entity carries no
`updated_at`. -/
def orderItemMerge (input : UpdateOrderItemInput) (r : OrderItemRow) :
    OrderItemRow :=
  { r with
    order_id := input.order_id.getD r.order_id
    product_id := input.product_id.getD r.product_id
    quantity := input.quantity.getD r.quantity
    unit_price := (input.unit_price.map jsToString).getD r.unit_price
    subtotal := (input.subtotal.map jsToString).getD r.subtotal }

def updateOrderItemSet (input : UpdateOrderItemInput) (db : DB) :
    Except String (OrderItem × DB) :=
  match (updateWhereId (·.id) input.id (orderItemMerge input) db.orderItems).2.head? with
  | some r =>
      .ok (coerceOrderItem r, { db with
        orderItems := (updateWhereId (·.id) input.id (orderItemMerge input) db.orderItems).1 })
  | none => .error "undefined"

/-- The referential check of `updateOrderItem` on a provided
`product_id` (throws naming the id). -/
def updateOrderItemCheckProduct (input : UpdateOrderItemInput) (db : DB) :
    Except String (OrderItem × DB) :=
  match input.product_id with
  | some pid =>
      if (selectById (·.id) pid db.products).isEmpty then
        .error ("Product with ID " ++ toString pid ++ " does not exist")
      else updateOrderItemSet input db
  | none => updateOrderItemSet input db

/-- `updateOrderItem`: existence pre-check, then referential checks on a
provided `order_id` / `product_id` (each throws naming the id), then the
update step runs. -/
def updateOrderItem (input : UpdateOrderItemInput) (db : DB) :
    Except String (OrderItem × DB) :=
  if (selectById (·.id) input.id db.orderItems).isEmpty then
    .error ("Order item with ID " ++ toString input.id ++ " does not exist")
  else
    match input.order_id with
    | some oid =>
        if (selectById (·.id) oid db.orders).isEmpty then
          .error ("Order with ID " ++ toString oid ++ " does not exist")
        else updateOrderItemCheckProduct input db
    | none => updateOrderItemCheckProduct input db

/-- `deleteOrderItem`: delete without `RETURNING` and report
`success: true` unconditionally. -/
def deleteOrderItem (input : DeleteInput) (db : DB) : DeleteResult × DB :=
  ({ success := true },
   { db with orderItems := (deleteWhereId (·.id) input.id db.orderItems).1 })

/-! ### The mutating operation surface and the resulting state

`applyOp` gives the database state observed after a remote call: a
handler that throws leaves the store as it was (each handler issues its
writes only after its checks pass). -/

inductive Op where
  | createUser (input : CreateUserInput)
  | updateUser (input : UpdateUserInput)
  | deleteUser (input : DeleteInput)
  | createCategory (input : CreateCategoryInput)
  | updateCategory (input : UpdateCategoryInput)
  | deleteCategory (input : DeleteInput)
  | createProduct (input : CreateProductInput)
  | updateProduct (input : UpdateProductInput)
  | deleteProduct (input : DeleteInput)
  | createOrder (input : CreateOrderInput)
  | updateOrder (input : UpdateOrderInput)
  | deleteOrder (input : DeleteInput)
  | createOrderItem (input : CreateOrderItemInput)
  | updateOrderItem (input : UpdateOrderItemInput)
  | deleteOrderItem (input : DeleteInput)

/-- State after a mutating remote call at time `now` (unchanged when the
handler throws). -/
def applyOp (now : Nat) (op : Op) (db : DB) : DB :=
  match op with
  | .createUser i => (createUser now i db).2
  | .updateUser i =>
      match updateUser now i db with
      | .ok r => r.2
      | .error _ => db
  | .deleteUser i =>
      match deleteUser i db with
      | .ok r => r.2
      | .error _ => db
  | .createCategory i => (createCategory now i db).2
  | .updateCategory i =>
      match updateCategory now i db with
      | .ok r => r.2
      | .error _ => db
  | .deleteCategory i => (deleteCategory i db).2
  | .createProduct i => (createProduct now i db).2
  | .updateProduct i =>
      match updateProduct now i db with
      | .ok r => r.2
      | .error _ => db
  | .deleteProduct i => (deleteProduct i db).2
  | .createOrder i =>
      match createOrder now i db with
      | .ok r => r.2
      | .error _ => db
  | .updateOrder i =>
      match updateOrder now i db with
      | .ok r => r.2
      | .error _ => db
  | .deleteOrder i => (deleteOrder i db).2
  | .createOrderItem i =>
      match createOrderItem now i db with
      | .ok r => r.2
      | .error _ => db
  | .updateOrderItem i =>
      match CrudModel.updateOrderItem i db with
      | .ok r => r.2
      | .error _ => db
  | .deleteOrderItem i => (deleteOrderItem i db).2

/-! ### State predicates -/

/-- Every stored timestamp is strictly earlier than `now`: the wall
clock advanced since each row was written. -/
@[reducible] def DB.timesLt (db : DB) (now : Nat) : Prop :=
  (∀ r ∈ db.users, r.created_at < now ∧ r.updated_at < now) ∧
  (∀ r ∈ db.categories, r.created_at < now ∧ r.updated_at < now) ∧
  (∀ r ∈ db.products, r.created_at < now ∧ r.updated_at < now) ∧
  (∀ r ∈ db.orders, r.created_at < now ∧ r.updated_at < now) ∧
  (∀ r ∈ db.orderItems, r.created_at < now)

/-- The timestamp invariant: `created_at ≤ updated_at` on every row that
carries both. -/
@[reducible] def DB.tsInv (db : DB) : Prop :=
  (∀ r ∈ db.users, r.created_at ≤ r.updated_at) ∧
  (∀ r ∈ db.categories, r.created_at ≤ r.updated_at) ∧
  (∀ r ∈ db.products, r.created_at ≤ r.updated_at) ∧
  (∀ r ∈ db.orders, r.created_at ≤ r.updated_at)

/-- The identity-key invariant: every stored id is below the table's
next auto-increment value, so a freshly generated key never collides
with (or reuses) an existing one. -/
@[reducible] def DB.idInv (db : DB) : Prop :=
  (∀ r ∈ db.users, r.id < db.nextUserId) ∧
  (∀ r ∈ db.categories, r.id < db.nextCategoryId) ∧
  (∀ r ∈ db.products, r.id < db.nextProductId) ∧
  (∀ r ∈ db.orders, r.id < db.nextOrderId) ∧
  (∀ r ∈ db.orderItems, r.id < db.nextOrderItemId)

/-! ### Sample rows used by the closed witness statements -/

def sampleUser : UserRow :=
  { id := 1, name := "Alice", email := "alice@example.com"
    role := Role.user, is_active := true, created_at := 10, updated_at := 10 }

def sampleCategory : CategoryRow :=
  { id := 1, name := "Books", description := none, is_active := true
    created_at := 10, updated_at := 10 }

def sampleProduct : ProductRow :=
  { id := 1, name := "Novel", description := none, price := "9.99"
    stock_quantity := 5, category_id := some 1, is_active := true
    created_at := 10, updated_at := 10 }

def sampleOrder : OrderRow :=
  { id := 1, user_id := 1, status := OrderStatus.pending
    total_amount := "20", notes := none, created_at := 10, updated_at := 10 }

def sampleOrderItem : OrderItemRow :=
  { id := 1, order_id := 1, product_id := 1, quantity := 2
    unit_price := "10", subtotal := "20", created_at := 10 }

def sampleDB : DB :=
  { users := [sampleUser], categories := [sampleCategory]
    products := [sampleProduct], orders := [sampleOrder]
    orderItems := [sampleOrderItem]
    nextUserId := 2, nextCategoryId := 2, nextProductId := 2
    nextOrderId := 2, nextOrderItemId := 2 }

/-- An order-create input naming the unknown user 999. -/
def badOrderInput : CreateOrderInput :=
  { user_id := 999, status := none, total_amount := 5, notes := none }

/-- An order-item create input (both references resolve in `sampleDB`). -/
def plainOrderItemInput : CreateOrderItemInput :=
  { order_id := 1, product_id := 1, quantity := 1, unit_price := 1, subtotal := 1 }

/-- A state with one product but no categories at all. -/
def noCatDB : DB := { sampleDB with categories := [] }

/-- A product update that only sets `category_id := 99`. -/
def danglingCategoryUpdate : UpdateProductInput :=
  { id := 1, name := none, description := none, price := none
    stock_quantity := none, category_id := some (some 99), is_active := none }

/-- An order update that only sets the unknown `user_id := 999`. -/
def danglingUserOrderUpdate : UpdateOrderInput :=
  { id := 1, user_id := some 999, status := none, total_amount := none
    notes := none }

/-- A user update that only supplies `name`. -/
def partialUserUpdate : UpdateUserInput :=
  { id := 1, name := some "Bob", email := none, role := none, is_active := none }

/-- The rational 19.99 given by its reduced fraction 1999/100 (spelled
with `Rat.mk'` so that it evaluates inside the kernel). -/
def price1999 : ℚ := Rat.mk' 1999 100 (by decide) (by decide)

/-- A product-create input with price 19.99 and all optional fields
omitted. -/
def sampleProductInput : CreateProductInput :=
  { name := "Novel", description := none, price := price1999
    stock_quantity := none, category_id := none, is_active := none }

/-- A user-create input with all optional fields omitted. -/
def minimalUserInput : CreateUserInput :=
  { name := "Carol", email := "carol@example.com", role := none
    is_active := none }

/-- A category-create input supplying the empty string as description. -/
def emptyDescCreateCategory : CreateCategoryInput :=
  { name := "Books", description := some (some ""), is_active := none }

/-- A category update supplying the empty string as description. -/
def emptyDescUpdateCategory : UpdateCategoryInput :=
  { id := 1, name := none, description := some (some ""), is_active := none }

/-! ### Correctness of the numeric-as-text codec -/

theorem foldl_natDigitsBE (k : Nat) :
    ∀ m a, m < 10 ^ k →
      (natDigitsBE k m).foldl (fun a d => 10 * a + d) a = a * 10 ^ k + m := by
  induction k with
  | zero =>
      intro m a h
      have hm : m = 0 := Nat.lt_one_iff.mp (by simpa using h)
      simp [natDigitsBE, hm]
  | succ k ih =>
      intro m a h
      have hpos : 0 < 10 ^ k := Nat.pos_pow_of_pos k (by norm_num)
      simp only [natDigitsBE, List.foldl_cons]
      rw [ih (m % 10 ^ k) _ (Nat.mod_lt _ hpos)]
      have h2 : 10 ^ k * (m / 10 ^ k) + m % 10 ^ k = m := Nat.div_add_mod m (10 ^ k)
      calc (10 * a + m / 10 ^ k) * 10 ^ k + m % 10 ^ k
          = a * (10 ^ k * 10) + (10 ^ k * (m / 10 ^ k) + m % 10 ^ k) := by ring
        _ = a * (10 ^ k * 10) + m := by rw [h2]
        _ = a * 10 ^ (k + 1) + m := by rw [pow_succ]

theorem ofDigitsBE_natDigitsBE {k m : Nat} (h : m < 10 ^ k) :
    ofDigitsBE (natDigitsBE k m) = m := by
  have := foldl_natDigitsBE k m 0 h
  simpa [ofDigitsBE] using this

theorem natDigitsBE_lt (k : Nat) :
    ∀ m, m < 10 ^ k → ∀ d ∈ natDigitsBE k m, d < 10 := by
  induction k with
  | zero => simp [natDigitsBE]
  | succ k ih =>
      intro m h d hd
      have hpos : 0 < 10 ^ k := Nat.pos_pow_of_pos k (by norm_num)
      simp only [natDigitsBE, List.mem_cons] at hd
      rcases hd with rfl | hd
      · exact Nat.div_lt_of_lt_mul (by rw [← pow_succ]; exact h)
      · exact ih (m % 10 ^ k) (Nat.mod_lt _ hpos) d hd

theorem natDigitsBE_length (k : Nat) : ∀ m, (natDigitsBE k m).length = k := by
  induction k with
  | zero => intro m; rfl
  | succ k ih => intro m; simp [natDigitsBE, ih]

theorem charToDigit_digitToChar {d : Nat} (h : d < 10) :
    charToDigit (digitToChar d) = d := by
  interval_cases d <;> decide

theorem digitToChar_ne_dot {d : Nat} (h : d < 10) : digitToChar d ≠ '.' := by
  interval_cases d <;> decide

theorem digitToChar_ne_dash {d : Nat} (h : d < 10) : digitToChar d ≠ '-' := by
  interval_cases d <;> decide

theorem parseDigits_map_digitToChar {l : List Nat} (h : ∀ d ∈ l, d < 10) :
    parseDigits (l.map digitToChar) = ofDigitsBE l := by
  unfold parseDigits
  rw [List.map_map]
  congr 1
  conv_rhs => rw [← List.map_id l]
  exact List.map_congr_left (fun d hd => charToDigit_digitToChar (h d hd))

theorem splitAtDot_no_dot {l : List Char} (h : ∀ c ∈ l, c ≠ '.') :
    splitAtDot l = (l, []) := by
  induction l with
  | nil => rfl
  | cons c rest ih =>
      have hc : c ≠ '.' := h c (List.mem_cons_self c rest)
      simp [splitAtDot, hc, ih (fun x hx => h x (List.mem_cons_of_mem c hx))]

theorem splitAtDot_append {x y : List Char} (h : ∀ c ∈ x, c ≠ '.') :
    splitAtDot (x ++ '.' :: y) = (x, y) := by
  induction x with
  | nil => simp [splitAtDot]
  | cons c rest ih =>
      have hc : c ≠ '.' := h c (List.mem_cons_self c rest)
      simp [splitAtDot, hc, ih (fun z hz => h z (List.mem_cons_of_mem c hz))]

theorem no_dot_in_digit_map {l : List Nat} (h : ∀ d ∈ l, d < 10) :
    ∀ c ∈ l.map digitToChar, c ≠ '.' := by
  intro c hc
  rcases List.mem_map.mp hc with ⟨d, hd, rfl⟩
  exact digitToChar_ne_dot (h d hd)

theorem numDigitsF_pos (fuel n : Nat) : 1 ≤ numDigitsF fuel n := by
  cases fuel with
  | zero => exact le_refl 1
  | succ f =>
      unfold numDigitsF
      by_cases h : n < 10 <;> simp [h]

theorem numDigitsF_spec : ∀ fuel n, n ≤ fuel → n < 10 ^ numDigitsF fuel n := by
  intro fuel
  induction fuel with
  | zero =>
      intro n h
      have : n = 0 := Nat.le_zero.mp h
      subst this
      simp [numDigitsF]
  | succ f ih =>
      intro n h
      unfold numDigitsF
      by_cases hn : n < 10
      · simp only [hn, if_true]
        omega
      · have hge : 10 ≤ n := le_of_not_lt hn
        have hrec : n / 10 ≤ f := by
          have h1 : n / 10 < n := Nat.div_lt_self (by omega) (by norm_num)
          omega
        have hIH := ih (n / 10) hrec
        simp only [hn, if_false, pow_succ]
        have hmod : n % 10 < 10 := Nat.mod_lt _ (by norm_num)
        have hdm : 10 * (n / 10) + n % 10 = n := Nat.div_add_mod n 10
        calc n = 10 * (n / 10) + n % 10 := hdm.symm
          _ < 10 * (n / 10) + 10 := by omega
          _ = 10 * (n / 10 + 1) := by ring
          _ ≤ 10 * 10 ^ numDigitsF f (n / 10) := by
              have : n / 10 + 1 ≤ 10 ^ numDigitsF f (n / 10) := hIH
              exact Nat.mul_le_mul_left 10 this
          _ = 10 ^ numDigitsF f (n / 10) * 10 := by ring

theorem numDigits_pos (n : Nat) : 1 ≤ numDigits n := numDigitsF_pos n n

theorem lt_pow_numDigits (n : Nat) : n < 10 ^ numDigits n :=
  numDigitsF_spec n n (le_refl n)

theorem parsePos_eq_div (l : List Char) :
    parsePos l = (parseDigits (splitAtDot l).1 : ℚ)
      + (parseDigits (splitAtDot l).2 : ℚ) / 10 ^ (splitAtDot l).2.length := by
  unfold parsePos
  rw [Rat.mkRat_eq_div]
  have h10 : ((10 : ℚ)) ^ (splitAtDot l).2.length ≠ 0 := by positivity
  push_cast
  field_simp

theorem parsePos_printNatDec (M k : Nat) :
    parsePos (printNatDec M k) = (M : ℚ) / 10 ^ k := by
  have hlt10 : (1 : Nat) < 10 := by norm_num
  by_cases hk : k = 0
  · subst hk
    have hb : M < 10 ^ numDigits M := lt_pow_numDigits M
    have hnd := no_dot_in_digit_map (natDigitsBE_lt _ _ hb)
    unfold printNatDec
    rw [if_pos rfl]
    rw [parsePos_eq_div]
    rw [splitAtDot_no_dot hnd]
    rw [parseDigits_map_digitToChar (natDigitsBE_lt _ _ hb),
      ofDigitsBE_natDigitsBE hb]
    norm_num [parseDigits, ofDigitsBE]
  · have hpos : 0 < 10 ^ k := Nat.pos_pow_of_pos k (by norm_num)
    have hA : M / 10 ^ k < 10 ^ numDigits (M / 10 ^ k) :=
      lt_pow_numDigits _
    have hB : M % 10 ^ k < 10 ^ k := Nat.mod_lt _ hpos
    have hnd := no_dot_in_digit_map (natDigitsBE_lt _ _ hA)
    unfold printNatDec
    rw [if_neg hk]
    rw [parsePos_eq_div]
    rw [splitAtDot_append hnd]
    have hlen : ((natDigitsBE k (M % 10 ^ k)).map digitToChar).length = k := by
      rw [List.length_map, natDigitsBE_length]
    rw [hlen, parseDigits_map_digitToChar (natDigitsBE_lt _ _ hA),
      parseDigits_map_digitToChar (natDigitsBE_lt _ _ hB),
      ofDigitsBE_natDigitsBE hA, ofDigitsBE_natDigitsBE hB]
    have hM : (M : ℚ) = 10 ^ k * (M / 10 ^ k : Nat) + (M % 10 ^ k : Nat) := by
      exact_mod_cast (Nat.div_add_mod M (10 ^ k)).symm
    have h10 : (10 : ℚ) ^ k ≠ 0 := by positivity
    field_simp
    rw [hM]
    ring

theorem parseFloatQ_mk_dash (l : List Char) :
    parseFloatQ ⟨'-' :: l⟩ = -(parsePos l) := by
  show mkRat (-(parseDigits (splitAtDot l).1 * 10 ^ (splitAtDot l).2.length
      + parseDigits (splitAtDot l).2 : Int)) (10 ^ (splitAtDot l).2.length)
    = -(parsePos l)
  unfold parsePos
  rw [Rat.mkRat_eq_div, Rat.mkRat_eq_div]
  push_cast
  ring

theorem parseFloatQ_mk_cons {c : Char} (l : List Char) (h : c ≠ '-') :
    parseFloatQ ⟨c :: l⟩ = parsePos (c :: l) := by
  simp [parseFloatQ, h]

theorem printNatDec_head (M k : Nat) :
    ∃ d rest, d < 10 ∧ printNatDec M k = digitToChar d :: rest := by
  by_cases hk : k = 0
  · subst hk
    have hb : M < 10 ^ numDigits M := lt_pow_numDigits M
    obtain ⟨j, hj⟩ : ∃ j, numDigits M = j + 1 :=
      ⟨numDigits M - 1, by have := numDigits_pos M; omega⟩
    refine ⟨M / 10 ^ j,
      (natDigitsBE j (M % 10 ^ j)).map digitToChar, ?_, ?_⟩
    · refine natDigitsBE_lt (numDigits M) M hb _ ?_
      rw [hj]
      simp [natDigitsBE]
    · simp [printNatDec, hj, natDigitsBE]
  · have hA : M / 10 ^ k < 10 ^ numDigits (M / 10 ^ k) :=
      lt_pow_numDigits _
    obtain ⟨j, hj⟩ : ∃ j, numDigits (M / 10 ^ k) = j + 1 :=
      ⟨numDigits (M / 10 ^ k) - 1, by have := numDigits_pos (M / 10 ^ k); omega⟩
    refine ⟨M / 10 ^ k / 10 ^ j,
      (natDigitsBE j (M / 10 ^ k % 10 ^ j)).map digitToChar
        ++ '.' :: (natDigitsBE k (M % 10 ^ k)).map digitToChar, ?_, ?_⟩
    · refine natDigitsBE_lt (numDigits (M / 10 ^ k)) _ hA _ ?_
      rw [hj]
      simp [natDigitsBE]
    · simp [printNatDec, hk, hj, natDigitsBE]

/-- Round-trip of the codec: on any exact decimal rational (in
particular on any value of JS double provenance), `parseFloat`
recovers the value `toString` printed. -/
theorem parseFloatQ_jsToString {q : ℚ} {k : Nat} (h : decExp q.den = some k) :
    parseFloatQ (jsToString q) = q := by
  have hdvd : q.den ∣ 10 ^ k := by
    have hp := List.find?_some h
    exact Nat.dvd_of_mod_eq_zero (by simpa using hp)
  have hMeq : q.num.natAbs * 10 ^ k / q.den * q.den = q.num.natAbs * 10 ^ k :=
    Nat.div_mul_cancel (hdvd.mul_left q.num.natAbs)
  have hden : (0 : ℚ) < (q.den : ℚ) := by exact_mod_cast q.den_pos
  have habs : ((q.num.natAbs * 10 ^ k / q.den : Nat) : ℚ) / 10 ^ k
      = (q.num.natAbs : ℚ) / q.den := by
    rw [div_eq_div_iff (by positivity) (ne_of_gt hden)]
    exact_mod_cast hMeq
  have hjs : jsToString q =
      if q.num < 0 then ⟨'-' :: printNatDec (q.num.natAbs * 10 ^ k / q.den) k⟩
      else ⟨printNatDec (q.num.natAbs * 10 ^ k / q.den) k⟩ := by
    unfold jsToString
    rw [h]
  rw [hjs]
  by_cases hneg : q.num < 0
  · rw [if_pos hneg, parseFloatQ_mk_dash, parsePos_printNatDec, habs]
    have hnum : ((q.num.natAbs : ℚ)) = -(q.num : ℚ) := by
      rw [Int.cast_natAbs]
      exact_mod_cast abs_of_neg hneg
    rw [hnum, neg_div, neg_neg, Rat.num_div_den]
  · rw [if_neg hneg]
    obtain ⟨d, rest, hd, hrepr⟩ :=
      printNatDec_head (q.num.natAbs * 10 ^ k / q.den) k
    rw [hrepr, parseFloatQ_mk_cons _ (digitToChar_ne_dash hd), ← hrepr,
      parsePos_printNatDec, habs]
    have hnum : ((q.num.natAbs : ℚ)) = (q.num : ℚ) := by
      rw [Int.cast_natAbs]
      exact_mod_cast abs_of_nonneg (le_of_not_lt hneg)
    rw [hnum, Rat.num_div_den]

/-! ### Generic table lemmas -/

theorem selectById_head?_some {getId : α → Nat} {i : Nat} {rows : List α}
    {r : α} (h : (selectById getId i rows).head? = some r) :
    r ∈ rows ∧ getId r = i := by
  have hmem : r ∈ selectById getId i rows :=
    List.mem_of_mem_head? (Option.mem_def.mpr h)
  unfold selectById at hmem
  have h2 := List.mem_filter.mp hmem
  exact ⟨h2.1, by simpa using h2.2⟩

theorem selectById_head?_none_iff {getId : α → Nat} {i : Nat}
    {rows : List α} :
    (selectById getId i rows).head? = none ↔ ∀ r ∈ rows, getId r ≠ i := by
  rw [List.head?_eq_none_iff]
  unfold selectById
  rw [List.filter_eq_nil_iff]
  simp

theorem selectById_isEmpty_iff {getId : α → Nat} {i : Nat} {rows : List α} :
    (selectById getId i rows).isEmpty = true ↔ ∀ r ∈ rows, getId r ≠ i := by
  rw [List.isEmpty_iff]
  unfold selectById
  rw [List.filter_eq_nil_iff]
  simp

theorem selectById_isEmpty_false {getId : α → Nat} {i : Nat} {rows : List α}
    (h : ∃ r ∈ rows, getId r = i) :
    (selectById getId i rows).isEmpty = false := by
  rcases h with ⟨r, hr, hid⟩
  cases hv : (selectById getId i rows).isEmpty with
  | false => rfl
  | true => exact absurd hid (selectById_isEmpty_iff.mp hv r hr)

theorem filter_map_untouched {g : α → α} {p : α → Bool} {l : List α}
    (h : ∀ x ∈ l, p (g x) = p x ∧ (p x = true → g x = x)) :
    (l.map g).filter p = l.filter p := by
  induction l with
  | nil => rfl
  | cons a l ih =>
      have ha := h a (List.mem_cons_self a l)
      have ihl := ih (fun x hx => h x (List.mem_cons_of_mem a hx))
      simp only [List.map_cons, List.filter_cons, ha.1]
      cases hp : p a with
      | false => simpa [hp] using ihl
      | true => simp [hp, ha.2 hp, ihl]

/-! ### Success and failure characterizations of the update handlers -/

theorem updateUser_missing {now : Nat} {input : UpdateUserInput} {db : DB}
    (h : ∀ r ∈ db.users, r.id ≠ input.id) :
    updateUser now input db
      = .error ("User with ID " ++ toString input.id ++ " not found") := by
  have h0 : getUserById ⟨input.id⟩ db = none :=
    selectById_head?_none_iff.mpr h
  simp only [updateUser, h0]

theorem updateUser_found {now : Nat} {input : UpdateUserInput} {db : DB}
    {r : UserRow} (h : getUserById ⟨input.id⟩ db = some r) :
    updateUser now input db =
      .ok (userMerge now input r,
        { db with users :=
            (db.users.map fun x =>
              if x.id == input.id then userMerge now input x else x) }) := by
  have h2 : ((db.users.filter fun x => x.id == input.id).map
      (userMerge now input)).head? = some (userMerge now input r) := by
    rw [List.head?_map]
    rw [show (db.users.filter fun x => x.id == input.id).head? = some r from h]
    rfl
  simp only [updateUser, updateWhereId, h, h2]

theorem updateCategory_missing {now : Nat} {input : UpdateCategoryInput}
    {db : DB} (h : ∀ r ∈ db.categories, r.id ≠ input.id) :
    updateCategory now input db
      = .error ("Category with ID " ++ toString input.id ++ " not found") := by
  have h2 : ((db.categories.filter fun x => x.id == input.id).map
      (categoryMerge now input)).head? = none := by
    rw [List.head?_map]
    rw [show (db.categories.filter fun x => x.id == input.id).head? = none
      from selectById_head?_none_iff.mpr h]
    rfl
  simp only [updateCategory, updateWhereId, h2]

theorem updateCategory_found {now : Nat} {input : UpdateCategoryInput}
    {db : DB} {r : CategoryRow} (h : getCategoryById ⟨input.id⟩ db = some r) :
    updateCategory now input db =
      .ok (categoryMerge now input r,
        { db with categories :=
            (db.categories.map fun x =>
              if x.id == input.id then categoryMerge now input x else x) }) := by
  have h2 : ((db.categories.filter fun x => x.id == input.id).map
      (categoryMerge now input)).head? = some (categoryMerge now input r) := by
    rw [List.head?_map]
    rw [show (db.categories.filter fun x => x.id == input.id).head? = some r
      from h]
    rfl
  simp only [updateCategory, updateWhereId, h2]

theorem updateProduct_missing {now : Nat} {input : UpdateProductInput}
    {db : DB} (h : ∀ r ∈ db.products, r.id ≠ input.id) :
    updateProduct now input db
      = .error ("Product with ID " ++ toString input.id ++ " not found") := by
  have h2 : ((db.products.filter fun x => x.id == input.id).map
      (productMerge now input)).head? = none := by
    rw [List.head?_map]
    rw [show (db.products.filter fun x => x.id == input.id).head? = none
      from selectById_head?_none_iff.mpr h]
    rfl
  simp only [updateProduct, updateWhereId, h2]

theorem updateProduct_found {now : Nat} {input : UpdateProductInput}
    {db : DB} {r : ProductRow}
    (h : (selectById (·.id) input.id db.products).head? = some r) :
    updateProduct now input db =
      .ok (coerceProduct (productMerge now input r),
        { db with products :=
            (db.products.map fun x =>
              if x.id == input.id then productMerge now input x else x) }) := by
  have h2 : ((db.products.filter fun x => x.id == input.id).map
      (productMerge now input)).head? = some (productMerge now input r) := by
    rw [List.head?_map]
    rw [show (db.products.filter fun x => x.id == input.id).head? = some r
      from h]
    rfl
  simp only [updateProduct, updateWhereId, h2]

theorem updateOrderGo_missing {now : Nat} {input : UpdateOrderInput}
    {db : DB} (h : ∀ r ∈ db.orders, r.id ≠ input.id) :
    updateOrderGo now input db
      = .error ("Order with id " ++ toString input.id ++ " not found") := by
  have h2 : ((db.orders.filter fun x => x.id == input.id).map
      (orderMerge now input)).head? = none := by
    rw [List.head?_map]
    rw [show (db.orders.filter fun x => x.id == input.id).head? = none
      from selectById_head?_none_iff.mpr h]
    rfl
  simp only [updateOrderGo, updateWhereId, h2]

theorem updateOrderGo_found {now : Nat} {input : UpdateOrderInput}
    {db : DB} {r : OrderRow}
    (h : (selectById (·.id) input.id db.orders).head? = some r) :
    updateOrderGo now input db =
      .ok (coerceOrder (orderMerge now input r),
        { db with orders :=
            (db.orders.map fun x =>
              if x.id == input.id then orderMerge now input x else x) }) := by
  have h2 : ((db.orders.filter fun x => x.id == input.id).map
      (orderMerge now input)).head? = some (orderMerge now input r) := by
    rw [List.head?_map]
    rw [show (db.orders.filter fun x => x.id == input.id).head? = some r
      from h]
    rfl
  simp only [updateOrderGo, updateWhereId, h2]

theorem updateOrderItemSet_found {input : UpdateOrderItemInput}
    {db : DB} {r : OrderItemRow}
    (h : (selectById (·.id) input.id db.orderItems).head? = some r) :
    updateOrderItemSet input db =
      .ok (coerceOrderItem (orderItemMerge input r),
        { db with orderItems :=
            (db.orderItems.map fun x =>
              if x.id == input.id then orderItemMerge input x else x) }) := by
  have h2 : ((db.orderItems.filter fun x => x.id == input.id).map
      (orderItemMerge input)).head? = some (orderItemMerge input r) := by
    rw [List.head?_map]
    rw [show (db.orderItems.filter fun x => x.id == input.id).head? = some r
      from h]
    rfl
  simp only [updateOrderItemSet, updateWhereId, h2]

/-! ### Additional generic lemmas for delete handlers -/

theorem selectById_not_isEmpty_iff {getId : α → Nat} {i : Nat}
    {rows : List α} :
    ((!(selectById getId i rows).isEmpty) = true) ↔ ∃ r ∈ rows, getId r = i := by
  rw [Bool.not_eq_true']
  constructor
  · intro hf
    by_contra hne
    push_neg at hne
    have ht := selectById_isEmpty_iff.mpr hne
    rw [ht] at hf
    simp at hf
  · intro he
    exact selectById_isEmpty_false he

/-- Rows with another id are untouched by an id-targeted update, as
observed through the first-match-by-id read. -/
theorem head?_filter_frame {g : α → α} {getId : α → Nat} {i j : Nat}
    {l : List α} (hid : ∀ x, getId (g x) = getId x) (hj : j ≠ i) :
    ((l.map fun x => if getId x == i then g x else x).filter
        fun x => getId x == j).head?
      = (l.filter fun x => getId x == j).head? := by
  congr 1
  refine filter_map_untouched (fun x _ => ⟨?_, ?_⟩)
  · cases hx : (getId x == i) with
    | true => simp [hx, hid]
    | false => simp [hx]
  · intro hpx
    have hxj : getId x = j := by simpa using hpx
    have hne : (getId x == i) = false := by simp [hxj, hj]
    simp [hne]

/-- Mapping the table after an id-targeted update preserves any
projection the patch does not touch. -/
theorem map_update_eq {g : α → α} {p : α → Bool} {f : α → β} {l : List α}
    (h : ∀ x, f (g x) = f x) :
    ((l.map fun x => if p x then g x else x).map f) = l.map f := by
  rw [List.map_map]
  refine List.map_congr_left (fun x _ => ?_)
  show f (if p x = true then g x else x) = f x
  by_cases hp : p x = true
  · rw [if_pos hp, h]
  · rw [if_neg hp]

/-- A rowwise property survives an id-targeted update whenever the
patch preserves it. -/
theorem forall_mem_update_map {l : List α} {g : α → α} {p : α → Bool}
    {P : α → Prop} (hold : ∀ x ∈ l, P x) (hg : ∀ x ∈ l, P x → P (g x)) :
    ∀ x ∈ (l.map fun y => if p y then g y else y), P x := by
  intro x hx
  rcases List.mem_map.mp hx with ⟨y, hy, hxy⟩
  cases hp : p y with
  | true =>
      rw [← hxy, if_pos hp]
      exact hg y hy (hold y hy)
  | false =>
      rw [← hxy, if_neg (by simp [hp])]
      exact hold y hy

/-! ### Inversion of successful mutations (the state they leave) -/

theorem updateUser_ok_inv {now : Nat} {i : UpdateUserInput} {db : DB}
    {v : UserRow} {db2 : DB} (h : updateUser now i db = .ok (v, db2)) :
    db2 = { db with users := (db.users.map fun x =>
        if x.id == i.id then userMerge now i x else x) } := by
  unfold updateUser at h
  split at h
  · simp at h
  · split at h
    · simp only [Except.ok.injEq, Prod.mk.injEq] at h
      rw [← h.2]
      rfl
    · simp at h

theorem updateCategory_ok_inv {now : Nat} {i : UpdateCategoryInput}
    {db : DB} {v : CategoryRow} {db2 : DB}
    (h : updateCategory now i db = .ok (v, db2)) :
    db2 = { db with categories := (db.categories.map fun x =>
        if x.id == i.id then categoryMerge now i x else x) } := by
  unfold updateCategory at h
  split at h
  · simp at h
  · simp only [Except.ok.injEq, Prod.mk.injEq] at h
    rw [← h.2]
    rfl

theorem updateProduct_ok_inv {now : Nat} {i : UpdateProductInput}
    {db : DB} {v : Product} {db2 : DB}
    (h : updateProduct now i db = .ok (v, db2)) :
    db2 = { db with products := (db.products.map fun x =>
        if x.id == i.id then productMerge now i x else x) } := by
  unfold updateProduct at h
  split at h
  · simp at h
  · simp only [Except.ok.injEq, Prod.mk.injEq] at h
    rw [← h.2]
    rfl

theorem updateOrderGo_ok_inv {now : Nat} {i : UpdateOrderInput}
    {db : DB} {v : Order} {db2 : DB}
    (h : updateOrderGo now i db = .ok (v, db2)) :
    db2 = { db with orders := (db.orders.map fun x =>
        if x.id == i.id then orderMerge now i x else x) } := by
  unfold updateOrderGo at h
  split at h
  · simp at h
  · simp only [Except.ok.injEq, Prod.mk.injEq] at h
    rw [← h.2]
    rfl

theorem updateOrder_ok_inv {now : Nat} {i : UpdateOrderInput}
    {db : DB} {v : Order} {db2 : DB}
    (h : updateOrder now i db = .ok (v, db2)) :
    db2 = { db with orders := (db.orders.map fun x =>
        if x.id == i.id then orderMerge now i x else x) } := by
  unfold updateOrder at h
  split at h
  · split at h
    · simp at h
    · exact updateOrderGo_ok_inv h
  · exact updateOrderGo_ok_inv h

theorem updateOrderItemSet_ok_inv {i : UpdateOrderItemInput}
    {db : DB} {v : OrderItem} {db2 : DB}
    (h : updateOrderItemSet i db = .ok (v, db2)) :
    db2 = { db with orderItems := (db.orderItems.map fun x =>
        if x.id == i.id then orderItemMerge i x else x) } := by
  unfold updateOrderItemSet at h
  split at h
  · simp only [Except.ok.injEq, Prod.mk.injEq] at h
    rw [← h.2]
    rfl
  · simp at h

theorem updateOrderItemCheckProduct_ok_inv {i : UpdateOrderItemInput}
    {db : DB} {v : OrderItem} {db2 : DB}
    (h : updateOrderItemCheckProduct i db = .ok (v, db2)) :
    db2 = { db with orderItems := (db.orderItems.map fun x =>
        if x.id == i.id then orderItemMerge i x else x) } := by
  unfold updateOrderItemCheckProduct at h
  split at h
  · split at h
    · simp at h
    · exact updateOrderItemSet_ok_inv h
  · exact updateOrderItemSet_ok_inv h

theorem updateOrderItem_ok_inv {i : UpdateOrderItemInput}
    {db : DB} {v : OrderItem} {db2 : DB}
    (h : updateOrderItem i db = .ok (v, db2)) :
    db2 = { db with orderItems := (db.orderItems.map fun x =>
        if x.id == i.id then orderItemMerge i x else x) } := by
  unfold updateOrderItem at h
  split at h
  · simp at h
  · split at h
    · split at h
      · simp at h
      · exact updateOrderItemCheckProduct_ok_inv h
    · exact updateOrderItemCheckProduct_ok_inv h

theorem createOrder_ok_inv {now : Nat} {i : CreateOrderInput} {db : DB}
    {v : Order} {db2 : DB} (h : createOrder now i db = .ok (v, db2)) :
    db2 = { db with orders := db.orders ++ [insertedOrder now i db]
                    nextOrderId := db.nextOrderId + 1 } := by
  unfold createOrder at h
  split at h
  · simp at h
  · simp only [Except.ok.injEq, Prod.mk.injEq] at h
    exact h.2.symm

theorem createOrderItem_ok_inv {now : Nat} {i : CreateOrderItemInput}
    {db : DB} {v : OrderItem} {db2 : DB}
    (h : createOrderItem now i db = .ok (v, db2)) :
    db2 = { db with orderItems := db.orderItems ++ [insertedOrderItem now i db]
                    nextOrderItemId := db.nextOrderItemId + 1 } := by
  unfold createOrderItem at h
  split at h
  · simp at h
  · split at h
    · simp at h
    · simp only [Except.ok.injEq, Prod.mk.injEq] at h
      exact h.2.symm

theorem deleteUser_ok_inv {i : DeleteInput} {db : DB}
    {v : DeleteResult} {db2 : DB} (h : deleteUser i db = .ok (v, db2)) :
    db2 = { db with users := (db.users.filter fun r => r.id != i.id) } := by
  unfold deleteUser at h
  split at h
  · simp at h
  · simp only [Except.ok.injEq, Prod.mk.injEq] at h
    rw [← h.2]
    rfl

/-! ### The claims -/

/-- C8: for every entity and every id, `getById` returns the first
stored row with that id (coerced where the entity carries currency
text) when one exists and `none` (`null`) when none does.  The read
handlers are total functions into `Option`, so no id value makes them
raise, and absence is never reported as an error. -/
theorem C8_getById_total (i : Nat) (db : DB) :
    (getUserById ⟨i⟩ db = none ↔ ∀ r ∈ db.users, r.id ≠ i) ∧
    (∀ u, getUserById ⟨i⟩ db = some u → u ∈ db.users ∧ u.id = i) ∧
    (getCategoryById ⟨i⟩ db = none ↔ ∀ r ∈ db.categories, r.id ≠ i) ∧
    (∀ c, getCategoryById ⟨i⟩ db = some c → c ∈ db.categories ∧ c.id = i) ∧
    (getProductById ⟨i⟩ db = none ↔ ∀ r ∈ db.products, r.id ≠ i) ∧
    (∀ p, getProductById ⟨i⟩ db = some p →
      ∃ r ∈ db.products, r.id = i ∧ p = coerceProduct r) ∧
    (getOrderById ⟨i⟩ db = none ↔ ∀ r ∈ db.orders, r.id ≠ i) ∧
    (∀ o, getOrderById ⟨i⟩ db = some o →
      ∃ r ∈ db.orders, r.id = i ∧ o = coerceOrder r) ∧
    (getOrderItemById ⟨i⟩ db = none ↔ ∀ r ∈ db.orderItems, r.id ≠ i) ∧
    (∀ t, getOrderItemById ⟨i⟩ db = some t →
      ∃ r ∈ db.orderItems, r.id = i ∧ t = coerceOrderItem r) := by
  refine ⟨?_, ?_, ?_, ?_, ?_, ?_, ?_, ?_, ?_, ?_⟩
  · exact selectById_head?_none_iff
  · intro u hu; exact selectById_head?_some hu
  · exact selectById_head?_none_iff
  · intro c hc; exact selectById_head?_some hc
  · constructor
    · intro hn
      refine selectById_head?_none_iff.mp ?_
      unfold getProductById at hn
      cases hh : (selectById (·.id) i db.products).head? with
      | none => rfl
      | some r => rw [hh] at hn; simp at hn
    · intro hall
      unfold getProductById
      rw [selectById_head?_none_iff.mpr hall]
      rfl
  · intro p hp
    unfold getProductById at hp
    cases hh : (selectById (·.id) i db.products).head? with
    | none => rw [hh] at hp; simp at hp
    | some r =>
        rw [hh] at hp
        simp only [Option.map_some', Option.some.injEq] at hp
        rcases selectById_head?_some hh with ⟨hmem, hid⟩
        exact ⟨r, hmem, hid, hp.symm⟩
  · constructor
    · intro hn
      refine selectById_head?_none_iff.mp ?_
      unfold getOrderById at hn
      cases hh : (selectById (·.id) i db.orders).head? with
      | none => rfl
      | some r => rw [hh] at hn; simp at hn
    · intro hall
      unfold getOrderById
      rw [selectById_head?_none_iff.mpr hall]
      rfl
  · intro o ho
    unfold getOrderById at ho
    cases hh : (selectById (·.id) i db.orders).head? with
    | none => rw [hh] at ho; simp at ho
    | some r =>
        rw [hh] at ho
        simp only [Option.map_some', Option.some.injEq] at ho
        rcases selectById_head?_some hh with ⟨hmem, hid⟩
        exact ⟨r, hmem, hid, ho.symm⟩
  · constructor
    · intro hn
      refine selectById_head?_none_iff.mp ?_
      unfold getOrderItemById at hn
      cases hh : (selectById (·.id) i db.orderItems).head? with
      | none => rfl
      | some r => rw [hh] at hn; simp at hn
    · intro hall
      unfold getOrderItemById
      rw [selectById_head?_none_iff.mpr hall]
      rfl
  · intro t ht
    unfold getOrderItemById at ht
    cases hh : (selectById (·.id) i db.orderItems).head? with
    | none => rw [hh] at ht; simp at ht
    | some r =>
        rw [hh] at ht
        simp only [Option.map_some', Option.some.injEq] at ht
        rcases selectById_head?_some hh with ⟨hmem, hid⟩
        exact ⟨r, hmem, hid, ht.symm⟩

/-- C8 witness: an id never returned by any create yields absence,
not an error. -/
theorem C8_witness : getUserById ⟨999⟩ sampleDB = none :=
  (C8_getById_total 999 sampleDB).1.mpr (by decide)

/-- C1 counterexample: the order-item delete handler reports
`success: true` for an id with no matching row (the claim requires
`success: false` there), and the user delete handler throws on a
missing id instead of returning at all. -/
theorem C1_counterexample :
    emptyDB.orderItems = [] ∧
    deleteOrderItem ⟨1⟩ emptyDB = ({ success := true }, emptyDB) ∧
    deleteUser ⟨1⟩ emptyDB = .error "User with ID 1 not found" := by
  refine ⟨rfl, rfl, rfl⟩

/-- C1 (amended): every delete removes exactly the matching rows, but
the success policy differs per entity: Category, Product and Order
report whether a row was removed and never throw; User throws on a
missing id and reports `success: true` otherwise; OrderItem reports
`success: true` unconditionally. -/
theorem C1_delete_policies (i : Nat) (db : DB) :
    ((deleteCategory ⟨i⟩ db).1.success = true ↔ ∃ r ∈ db.categories, r.id = i) ∧
    (deleteCategory ⟨i⟩ db).2
      = { db with categories := (db.categories.filter fun r => r.id != i) } ∧
    ((deleteProduct ⟨i⟩ db).1.success = true ↔ ∃ r ∈ db.products, r.id = i) ∧
    (deleteProduct ⟨i⟩ db).2
      = { db with products := (db.products.filter fun r => r.id != i) } ∧
    ((deleteOrder ⟨i⟩ db).1.success = true ↔ ∃ r ∈ db.orders, r.id = i) ∧
    (deleteOrder ⟨i⟩ db).2
      = { db with orders := (db.orders.filter fun r => r.id != i) } ∧
    ((∀ r ∈ db.users, r.id ≠ i) →
      deleteUser ⟨i⟩ db
        = .error ("User with ID " ++ toString i ++ " not found")) ∧
    ((∃ r ∈ db.users, r.id = i) →
      deleteUser ⟨i⟩ db = .ok ({ success := true },
        { db with users := (db.users.filter fun r => r.id != i) })) ∧
    (deleteOrderItem ⟨i⟩ db).1.success = true ∧
    (deleteOrderItem ⟨i⟩ db).2
      = { db with orderItems := (db.orderItems.filter fun r => r.id != i) } := by
  refine ⟨selectById_not_isEmpty_iff, rfl, selectById_not_isEmpty_iff, rfl,
    selectById_not_isEmpty_iff, rfl, ?_, ?_, rfl, rfl⟩
  · intro h
    have h0 : getUserById ⟨i⟩ db = none := selectById_head?_none_iff.mpr h
    simp only [deleteUser, h0]
  · intro he
    obtain ⟨r0, hr0⟩ : ∃ r0, getUserById ⟨i⟩ db = some r0 := by
      cases hh : getUserById ⟨i⟩ db with
      | some r0 => exact ⟨r0, rfl⟩
      | none =>
          rcases he with ⟨r, hr, hid⟩
          exact absurd hid (selectById_head?_none_iff.mp hh r hr)
    simp only [deleteUser, hr0, deleteWhereId]

/-- C1 witness: deleting a present user removes the row and reports
success. -/
theorem C1_witness :
    deleteUser ⟨1⟩ sampleDB = .ok ({ success := true },
      { sampleDB with users := (sampleDB.users.filter fun r => r.id != 1) }) :=
  (C1_delete_policies 1 sampleDB).2.2.2.2.2.2.2.1 (by decide)

/-- C2: creating an Order whose `user_id` matches no user, or an
OrderItem whose `order_id` or `product_id` matches no row, throws a
referential error naming the missing id before any insert, and the
state (hence any subsequent `getAll`) is unchanged. -/
theorem C2_create_referential (now : Nat) (db : DB)
    (oin : CreateOrderInput) (iin : CreateOrderItemInput) :
    ((∀ r ∈ db.users, r.id ≠ oin.user_id) →
      createOrder now oin db
        = .error ("User with id " ++ toString oin.user_id ++ " not found") ∧
      applyOp now (Op.createOrder oin) db = db ∧
      getOrders (applyOp now (Op.createOrder oin) db) = getOrders db) ∧
    ((∀ r ∈ db.orders, r.id ≠ iin.order_id) →
      createOrderItem now iin db
        = .error ("Order with ID " ++ toString iin.order_id ++ " does not exist") ∧
      applyOp now (Op.createOrderItem iin) db = db ∧
      getOrderItems (applyOp now (Op.createOrderItem iin) db)
        = getOrderItems db) ∧
    ((∃ r ∈ db.orders, r.id = iin.order_id) →
      (∀ r ∈ db.products, r.id ≠ iin.product_id) →
      createOrderItem now iin db
        = .error ("Product with ID " ++ toString iin.product_id ++ " does not exist") ∧
      applyOp now (Op.createOrderItem iin) db = db ∧
      getOrderItems (applyOp now (Op.createOrderItem iin) db)
        = getOrderItems db) := by
  refine ⟨?_, ?_, ?_⟩
  · intro h
    have hsel : (selectById (·.id) oin.user_id db.users).isEmpty = true :=
      selectById_isEmpty_iff.mpr h
    have herr : createOrder now oin db
        = .error ("User with id " ++ toString oin.user_id ++ " not found") := by
      simp [createOrder, hsel]
    have happ : applyOp now (Op.createOrder oin) db = db := by
      simp only [applyOp, herr]
    exact ⟨herr, happ, by rw [happ]⟩
  · intro h
    have hsel : (selectById (·.id) iin.order_id db.orders).isEmpty = true :=
      selectById_isEmpty_iff.mpr h
    have herr : createOrderItem now iin db
        = .error ("Order with ID " ++ toString iin.order_id ++ " does not exist") := by
      simp [createOrderItem, hsel]
    have happ : applyOp now (Op.createOrderItem iin) db = db := by
      simp only [applyOp, herr]
    exact ⟨herr, happ, by rw [happ]⟩
  · intro horder h
    have hsel1 : (selectById (·.id) iin.order_id db.orders).isEmpty = false :=
      selectById_isEmpty_false horder
    have hsel2 : (selectById (·.id) iin.product_id db.products).isEmpty = true :=
      selectById_isEmpty_iff.mpr h
    have herr : createOrderItem now iin db
        = .error ("Product with ID " ++ toString iin.product_id ++ " does not exist") := by
      simp [createOrderItem, hsel1, hsel2]
    have happ : applyOp now (Op.createOrderItem iin) db = db := by
      simp only [applyOp, herr]
    exact ⟨herr, happ, by rw [happ]⟩

/-- C2 witness: creating an order for the unknown user 999 fails with
the referential message and a subsequent `getAll` sees no new row. -/
theorem C2_witness :
    createOrder 11 badOrderInput sampleDB
      = .error "User with id 999 not found" ∧
    getOrders (applyOp 11 (Op.createOrder badOrderInput) sampleDB)
      = getOrders sampleDB := by
  have h := (C2_create_referential 11 sampleDB badOrderInput
    plainOrderItemInput).1 (by decide)
  exact ⟨h.1, h.2.2⟩

/-- C3 counterexample: with no categories stored at all, updating a
product to `category_id := 99` succeeds and persists the dangling
reference — `updateProduct` performs no referential check on
`category_id`, so the claim fails for Product. -/
theorem C3_counterexample :
    noCatDB.categories = [] ∧
    updateProduct 11 danglingCategoryUpdate noCatDB
      = .ok (coerceProduct
          { sampleProduct with category_id := some 99, updated_at := 11 },
        { noCatDB with products :=
            [{ sampleProduct with category_id := some 99, updated_at := 11 }] }) :=
  ⟨rfl, rfl⟩

/-- C3 (amended): update on a missing target fails for every entity; a
provided `Order.user_id`, `OrderItem.order_id` or `OrderItem.product_id`
that matches no row makes the update fail with a referential error
naming the id, leaving the state unchanged; `Product.category_id` is
exempt — the handler stores it without any referential check. -/
theorem C3_update_referential (now : Nat) (db : DB)
    (uu : UpdateUserInput) (uc : UpdateCategoryInput) (up : UpdateProductInput)
    (uo : UpdateOrderInput) (ui : UpdateOrderItemInput) :
    ((∀ r ∈ db.users, r.id ≠ uu.id) →
      updateUser now uu db
        = .error ("User with ID " ++ toString uu.id ++ " not found")) ∧
    ((∀ r ∈ db.categories, r.id ≠ uc.id) →
      updateCategory now uc db
        = .error ("Category with ID " ++ toString uc.id ++ " not found")) ∧
    ((∀ r ∈ db.products, r.id ≠ up.id) →
      updateProduct now up db
        = .error ("Product with ID " ++ toString up.id ++ " not found")) ∧
    ((∀ r ∈ db.orders, r.id ≠ uo.id) →
      ∃ e, updateOrder now uo db = .error e) ∧
    ((∀ r ∈ db.orderItems, r.id ≠ ui.id) →
      updateOrderItem ui db
        = .error ("Order item with ID " ++ toString ui.id ++ " does not exist")) ∧
    (∀ uid, uo.user_id = some uid → (∀ r ∈ db.users, r.id ≠ uid) →
      updateOrder now uo db
        = .error ("User with id " ++ toString uid ++ " not found") ∧
      applyOp now (Op.updateOrder uo) db = db) ∧
    (∀ oid, ui.order_id = some oid → (∃ r ∈ db.orderItems, r.id = ui.id) →
      (∀ r ∈ db.orders, r.id ≠ oid) →
      updateOrderItem ui db
        = .error ("Order with ID " ++ toString oid ++ " does not exist") ∧
      applyOp now (Op.updateOrderItem ui) db = db) ∧
    (∀ pid, ui.product_id = some pid → (∃ r ∈ db.orderItems, r.id = ui.id) →
      (∀ oid ∈ ui.order_id, ∃ r ∈ db.orders, r.id = oid) →
      (∀ r ∈ db.products, r.id ≠ pid) →
      updateOrderItem ui db
        = .error ("Product with ID " ++ toString pid ++ " does not exist") ∧
      applyOp now (Op.updateOrderItem ui) db = db) := by
  refine ⟨fun h => updateUser_missing h, fun h => updateCategory_missing h,
    fun h => updateProduct_missing h, ?_, ?_, ?_, ?_, ?_⟩
  · intro h
    cases huid : uo.user_id with
    | none =>
        refine ⟨"Order with id " ++ toString uo.id ++ " not found", ?_⟩
        simp only [updateOrder, huid]
        exact updateOrderGo_missing h
    | some uid =>
        cases hsel : (selectById (·.id) uid db.users).isEmpty with
        | true =>
            refine ⟨"User with id " ++ toString uid ++ " not found", ?_⟩
            simp [updateOrder, huid, hsel]
        | false =>
            refine ⟨"Order with id " ++ toString uo.id ++ " not found", ?_⟩
            simp only [updateOrder, huid, hsel, Bool.false_eq_true, if_false]
            exact updateOrderGo_missing h
  · intro h
    have hsel : (selectById (·.id) ui.id db.orderItems).isEmpty = true :=
      selectById_isEmpty_iff.mpr h
    simp [updateOrderItem, hsel]
  · intro uid huid h
    have hsel : (selectById (·.id) uid db.users).isEmpty = true :=
      selectById_isEmpty_iff.mpr h
    have herr : updateOrder now uo db
        = .error ("User with id " ++ toString uid ++ " not found") := by
      simp [updateOrder, huid, hsel]
    exact ⟨herr, by simp only [applyOp, herr]⟩
  · intro oid hoid hex h
    have hpre : (selectById (·.id) ui.id db.orderItems).isEmpty = false :=
      selectById_isEmpty_false hex
    have hsel : (selectById (·.id) oid db.orders).isEmpty = true :=
      selectById_isEmpty_iff.mpr h
    have herr : updateOrderItem ui db
        = .error ("Order with ID " ++ toString oid ++ " does not exist") := by
      simp [updateOrderItem, hpre, hoid, hsel]
    exact ⟨herr, by simp only [applyOp, herr]⟩
  · intro pid hpid hex hords h
    have hpre : (selectById (·.id) ui.id db.orderItems).isEmpty = false :=
      selectById_isEmpty_false hex
    have hsel : (selectById (·.id) pid db.products).isEmpty = true :=
      selectById_isEmpty_iff.mpr h
    have herr : updateOrderItem ui db
        = .error ("Product with ID " ++ toString pid ++ " does not exist") := by
      cases hoid : ui.order_id with
      | none =>
          simp [updateOrderItem, hpre, hoid, updateOrderItemCheckProduct,
            hpid, hsel]
      | some oid =>
          have hofalse : (selectById (·.id) oid db.orders).isEmpty = false :=
            selectById_isEmpty_false (hords oid (by simp [hoid]))
          simp [updateOrderItem, hpre, hoid, hofalse,
            updateOrderItemCheckProduct, hpid, hsel]
    exact ⟨herr, by simp only [applyOp, herr]⟩

/-- C3 witness: updating an order to reference the unknown user 999
fails with the referential message and changes nothing. -/
theorem C3_witness :
    updateOrder 11 danglingUserOrderUpdate sampleDB
      = .error "User with id 999 not found" ∧
    applyOp 11 (Op.updateOrder danglingUserOrderUpdate) sampleDB = sampleDB :=
  (C3_update_referential 11 sampleDB ⟨1, none, none, none, none⟩
    ⟨1, none, none, none⟩ ⟨1, none, none, none, none, none, none⟩
    danglingUserOrderUpdate
    ⟨1, none, none, none, none, none⟩).2.2.2.2.2.1 999 rfl (by decide)

/-- C4: a successful partial update changes exactly the supplied fields
of the target row, keeps the identity key, `created_at` and every
unsupplied field at their prior values, sets `updated_at` to the call
time — strictly later than the row's previous `updated_at` — for the
entities that carry it (OrderItem carries none), and leaves rows with
any other id unchanged as observed by `getById`. -/
theorem C4_partial_update (now : Nat) (db : DB)
    (uu : UpdateUserInput) (uc : UpdateCategoryInput) (up : UpdateProductInput)
    (uo : UpdateOrderInput) (ui : UpdateOrderItemInput) :
    (∀ r, getUserById ⟨uu.id⟩ db = some r → r.updated_at < now →
      updateUser now uu db
        = .ok (userMerge now uu r,
          { db with users := (db.users.map fun x =>
              if x.id == uu.id then userMerge now uu x else x) }) ∧
      (userMerge now uu r).id = r.id ∧
      (userMerge now uu r).created_at = r.created_at ∧
      (userMerge now uu r).updated_at = now ∧
      r.updated_at < (userMerge now uu r).updated_at ∧
      (uu.name = none → (userMerge now uu r).name = r.name) ∧
      (∀ v, uu.name = some v → (userMerge now uu r).name = v) ∧
      (uu.email = none → (userMerge now uu r).email = r.email) ∧
      (∀ v, uu.email = some v → (userMerge now uu r).email = v) ∧
      (uu.role = none → (userMerge now uu r).role = r.role) ∧
      (∀ v, uu.role = some v → (userMerge now uu r).role = v) ∧
      (uu.is_active = none → (userMerge now uu r).is_active = r.is_active) ∧
      (∀ v, uu.is_active = some v → (userMerge now uu r).is_active = v) ∧
      (∀ j, j ≠ uu.id →
        getUserById ⟨j⟩ (applyOp now (Op.updateUser uu) db)
          = getUserById ⟨j⟩ db)) ∧
    (∀ r, getCategoryById ⟨uc.id⟩ db = some r → r.updated_at < now →
      updateCategory now uc db
        = .ok (categoryMerge now uc r,
          { db with categories := (db.categories.map fun x =>
              if x.id == uc.id then categoryMerge now uc x else x) }) ∧
      (categoryMerge now uc r).id = r.id ∧
      (categoryMerge now uc r).created_at = r.created_at ∧
      (categoryMerge now uc r).updated_at = now ∧
      r.updated_at < (categoryMerge now uc r).updated_at ∧
      (uc.name = none → (categoryMerge now uc r).name = r.name) ∧
      (∀ v, uc.name = some v → (categoryMerge now uc r).name = v) ∧
      (uc.description = none →
        (categoryMerge now uc r).description = r.description) ∧
      (∀ v, uc.description = some v →
        (categoryMerge now uc r).description = v) ∧
      (uc.is_active = none →
        (categoryMerge now uc r).is_active = r.is_active) ∧
      (∀ v, uc.is_active = some v → (categoryMerge now uc r).is_active = v) ∧
      (∀ j, j ≠ uc.id →
        getCategoryById ⟨j⟩ (applyOp now (Op.updateCategory uc) db)
          = getCategoryById ⟨j⟩ db)) ∧
    (∀ r, (selectById (·.id) up.id db.products).head? = some r →
      r.updated_at < now →
      updateProduct now up db
        = .ok (coerceProduct (productMerge now up r),
          { db with products := (db.products.map fun x =>
              if x.id == up.id then productMerge now up x else x) }) ∧
      (productMerge now up r).id = r.id ∧
      (productMerge now up r).created_at = r.created_at ∧
      (productMerge now up r).updated_at = now ∧
      r.updated_at < (productMerge now up r).updated_at ∧
      (up.name = none → (productMerge now up r).name = r.name) ∧
      (∀ v, up.name = some v → (productMerge now up r).name = v) ∧
      (up.description = none →
        (productMerge now up r).description = r.description) ∧
      (∀ v, up.description = some v →
        (productMerge now up r).description = v) ∧
      (up.price = none → (productMerge now up r).price = r.price) ∧
      (∀ v, up.price = some v → (productMerge now up r).price = jsToString v) ∧
      (up.stock_quantity = none →
        (productMerge now up r).stock_quantity = r.stock_quantity) ∧
      (∀ v, up.stock_quantity = some v →
        (productMerge now up r).stock_quantity = v) ∧
      (up.category_id = none →
        (productMerge now up r).category_id = r.category_id) ∧
      (∀ v, up.category_id = some v →
        (productMerge now up r).category_id = v) ∧
      (up.is_active = none →
        (productMerge now up r).is_active = r.is_active) ∧
      (∀ v, up.is_active = some v → (productMerge now up r).is_active = v) ∧
      (∀ j, j ≠ up.id →
        getProductById ⟨j⟩ (applyOp now (Op.updateProduct up) db)
          = getProductById ⟨j⟩ db)) ∧
    ((∀ uid ∈ uo.user_id, ∃ x ∈ db.users, x.id = uid) →
      ∀ r, (selectById (·.id) uo.id db.orders).head? = some r →
      r.updated_at < now →
      updateOrder now uo db
        = .ok (coerceOrder (orderMerge now uo r),
          { db with orders := (db.orders.map fun x =>
              if x.id == uo.id then orderMerge now uo x else x) }) ∧
      (orderMerge now uo r).id = r.id ∧
      (orderMerge now uo r).created_at = r.created_at ∧
      (orderMerge now uo r).updated_at = now ∧
      r.updated_at < (orderMerge now uo r).updated_at ∧
      (uo.user_id = none → (orderMerge now uo r).user_id = r.user_id) ∧
      (∀ v, uo.user_id = some v → (orderMerge now uo r).user_id = v) ∧
      (uo.status = none → (orderMerge now uo r).status = r.status) ∧
      (∀ v, uo.status = some v → (orderMerge now uo r).status = v) ∧
      (uo.total_amount = none →
        (orderMerge now uo r).total_amount = r.total_amount) ∧
      (∀ v, uo.total_amount = some v →
        (orderMerge now uo r).total_amount = jsToString v) ∧
      (uo.notes = none → (orderMerge now uo r).notes = r.notes) ∧
      (∀ v, uo.notes = some v → (orderMerge now uo r).notes = v) ∧
      (∀ j, j ≠ uo.id →
        getOrderById ⟨j⟩ (applyOp now (Op.updateOrder uo) db)
          = getOrderById ⟨j⟩ db)) ∧
    ((∀ oid ∈ ui.order_id, ∃ x ∈ db.orders, x.id = oid) →
      (∀ pid ∈ ui.product_id, ∃ x ∈ db.products, x.id = pid) →
      ∀ r, (selectById (·.id) ui.id db.orderItems).head? = some r →
      updateOrderItem ui db
        = .ok (coerceOrderItem (orderItemMerge ui r),
          { db with orderItems := (db.orderItems.map fun x =>
              if x.id == ui.id then orderItemMerge ui x else x) }) ∧
      (orderItemMerge ui r).id = r.id ∧
      (orderItemMerge ui r).created_at = r.created_at ∧
      (ui.order_id = none → (orderItemMerge ui r).order_id = r.order_id) ∧
      (∀ v, ui.order_id = some v → (orderItemMerge ui r).order_id = v) ∧
      (ui.product_id = none →
        (orderItemMerge ui r).product_id = r.product_id) ∧
      (∀ v, ui.product_id = some v → (orderItemMerge ui r).product_id = v) ∧
      (ui.quantity = none → (orderItemMerge ui r).quantity = r.quantity) ∧
      (∀ v, ui.quantity = some v → (orderItemMerge ui r).quantity = v) ∧
      (ui.unit_price = none →
        (orderItemMerge ui r).unit_price = r.unit_price) ∧
      (∀ v, ui.unit_price = some v →
        (orderItemMerge ui r).unit_price = jsToString v) ∧
      (ui.subtotal = none → (orderItemMerge ui r).subtotal = r.subtotal) ∧
      (∀ v, ui.subtotal = some v →
        (orderItemMerge ui r).subtotal = jsToString v) ∧
      (∀ j, j ≠ ui.id →
        getOrderItemById ⟨j⟩ (applyOp now (Op.updateOrderItem ui) db)
          = getOrderItemById ⟨j⟩ db)) := by
  refine ⟨?_, ?_, ?_, ?_, ?_⟩
  · intro r hr hlt
    have hok := @updateUser_found now _ _ _ hr
    have happ : applyOp now (Op.updateUser uu) db
        = { db with users := (db.users.map fun x =>
            if x.id == uu.id then userMerge now uu x else x) } := by
      simp only [applyOp, hok]
    refine ⟨hok, rfl, rfl, rfl, hlt,
      fun h => by simp [userMerge, h], fun v h => by simp [userMerge, h],
      fun h => by simp [userMerge, h], fun v h => by simp [userMerge, h],
      fun h => by simp [userMerge, h], fun v h => by simp [userMerge, h],
      fun h => by simp [userMerge, h], fun v h => by simp [userMerge, h],
      ?_⟩
    intro j hj
    rw [happ]
    exact head?_filter_frame (fun x => rfl) hj
  · intro r hr hlt
    have hok := @updateCategory_found now _ _ _ hr
    have happ : applyOp now (Op.updateCategory uc) db
        = { db with categories := (db.categories.map fun x =>
            if x.id == uc.id then categoryMerge now uc x else x) } := by
      simp only [applyOp, hok]
    refine ⟨hok, rfl, rfl, rfl, hlt,
      fun h => by simp [categoryMerge, h], fun v h => by simp [categoryMerge, h],
      fun h => by simp [categoryMerge, h], fun v h => by simp [categoryMerge, h],
      fun h => by simp [categoryMerge, h], fun v h => by simp [categoryMerge, h],
      ?_⟩
    intro j hj
    rw [happ]
    exact head?_filter_frame (fun x => rfl) hj
  · intro r hr hlt
    have hok := @updateProduct_found now _ _ _ hr
    have happ : applyOp now (Op.updateProduct up) db
        = { db with products := (db.products.map fun x =>
            if x.id == up.id then productMerge now up x else x) } := by
      simp only [applyOp, hok]
    refine ⟨hok, rfl, rfl, rfl, hlt,
      fun h => by simp [productMerge, h], fun v h => by simp [productMerge, h],
      fun h => by simp [productMerge, h], fun v h => by simp [productMerge, h],
      fun h => by simp [productMerge, h], fun v h => by simp [productMerge, h],
      fun h => by simp [productMerge, h], fun v h => by simp [productMerge, h],
      fun h => by simp [productMerge, h], fun v h => by simp [productMerge, h],
      fun h => by simp [productMerge, h], fun v h => by simp [productMerge, h],
      ?_⟩
    intro j hj
    rw [happ]
    exact congrArg (Option.map coerceProduct)
      (head?_filter_frame (fun x => rfl) hj)
  · intro huser r hr hlt
    have hgo : updateOrder now uo db = updateOrderGo now uo db := by
      cases huid : uo.user_id with
      | none => simp [updateOrder, huid]
      | some uid =>
          have hne : (selectById (·.id) uid db.users).isEmpty = false :=
            selectById_isEmpty_false (huser uid (by simp [huid]))
          simp [updateOrder, huid, hne]
    have hok := hgo.trans (@updateOrderGo_found now _ _ _ hr)
    have happ : applyOp now (Op.updateOrder uo) db
        = { db with orders := (db.orders.map fun x =>
            if x.id == uo.id then orderMerge now uo x else x) } := by
      simp only [applyOp, hok]
    refine ⟨hok, rfl, rfl, rfl, hlt,
      fun h => by simp [orderMerge, h], fun v h => by simp [orderMerge, h],
      fun h => by simp [orderMerge, h], fun v h => by simp [orderMerge, h],
      fun h => by simp [orderMerge, h], fun v h => by simp [orderMerge, h],
      fun h => by simp [orderMerge, h], fun v h => by simp [orderMerge, h],
      ?_⟩
    intro j hj
    rw [happ]
    exact congrArg (Option.map coerceOrder)
      (head?_filter_frame (fun x => rfl) hj)
  · intro hord hprod r hr
    have hmm := selectById_head?_some hr
    have hpre : (selectById (·.id) ui.id db.orderItems).isEmpty = false :=
      selectById_isEmpty_false ⟨r, hmm.1, hmm.2⟩
    have hstep1 : updateOrderItem ui db = updateOrderItemCheckProduct ui db := by
      cases hoid : ui.order_id with
      | none => simp [updateOrderItem, hpre, hoid]
      | some oid =>
          have hne : (selectById (·.id) oid db.orders).isEmpty = false :=
            selectById_isEmpty_false (hord oid (by simp [hoid]))
          simp [updateOrderItem, hpre, hoid, hne]
    have hstep2 : updateOrderItemCheckProduct ui db
        = updateOrderItemSet ui db := by
      cases hpid : ui.product_id with
      | none => simp [updateOrderItemCheckProduct, hpid]
      | some pid =>
          have hne : (selectById (·.id) pid db.products).isEmpty = false :=
            selectById_isEmpty_false (hprod pid (by simp [hpid]))
          simp [updateOrderItemCheckProduct, hpid, hne]
    have hok := (hstep1.trans hstep2).trans (updateOrderItemSet_found hr)
    have happ : applyOp now (Op.updateOrderItem ui) db
        = { db with orderItems := (db.orderItems.map fun x =>
            if x.id == ui.id then orderItemMerge ui x else x) } := by
      simp only [applyOp, hok]
    refine ⟨hok, rfl, rfl,
      fun h => by simp [orderItemMerge, h],
      fun v h => by simp [orderItemMerge, h],
      fun h => by simp [orderItemMerge, h],
      fun v h => by simp [orderItemMerge, h],
      fun h => by simp [orderItemMerge, h],
      fun v h => by simp [orderItemMerge, h],
      fun h => by simp [orderItemMerge, h],
      fun v h => by simp [orderItemMerge, h],
      fun h => by simp [orderItemMerge, h],
      fun v h => by simp [orderItemMerge, h],
      ?_⟩
    intro j hj
    rw [happ]
    exact congrArg (Option.map coerceOrderItem)
      (head?_filter_frame (fun x => rfl) hj)

/-- C4 witness: updating only the name of the stored user leaves email
and `created_at` unchanged and strictly advances `updated_at`. -/
theorem C4_witness :
    (userMerge 11 partialUserUpdate sampleUser).email = sampleUser.email ∧
    (userMerge 11 partialUserUpdate sampleUser).created_at
      = sampleUser.created_at ∧
    sampleUser.updated_at < (userMerge 11 partialUserUpdate sampleUser).updated_at ∧
    (userMerge 11 partialUserUpdate sampleUser).name = "Bob" := by
  have h := (C4_partial_update 11 sampleDB partialUserUpdate
    ⟨1, none, none, none⟩ ⟨1, none, none, none, none, none, none⟩
    ⟨1, none, none, none, none⟩ ⟨1, none, none, none, none, none⟩).1
    sampleUser rfl (by decide)
  exact ⟨h.2.2.2.2.2.2.2.1 rfl, h.2.2.1, h.2.2.2.2.1,
    h.2.2.2.2.2.2.1 "Bob" rfl⟩

/-- C5: creating a product with an exact-decimal price `p` (every
finite JS double is such a rational) persists it as text, and every
read path — the create return value, `getById` and `getAll` — re-parses
the stored text to a value numerically equal to `p`.  That the caller
observes a numeric type, never a string, is expressed by the
`Product.price : ℚ` field of the handlers' return type, produced by
`parseFloatQ` on every path. -/
theorem C5_price_round_trip (now : Nat) (input : CreateProductInput)
    (db : DB) (k : Nat) (hdec : decExp input.price.den = some k)
    (_hpos : 0 < input.price) (hid : db.idInv) :
    ((createProduct now input db).1.price = input.price) ∧
    (getProductById ⟨(createProduct now input db).1.id⟩
        (createProduct now input db).2
      = some (createProduct now input db).1) ∧
    (getProducts (createProduct now input db).2
      = getProducts db ++ [(createProduct now input db).1]) := by
  have hrt : parseFloatQ (jsToString input.price) = input.price :=
    parseFloatQ_jsToString hdec
  refine ⟨hrt, ?_, ?_⟩
  · show ((db.products ++ [insertedProduct now input db]).filter
        (fun x => x.id == db.nextProductId)).head?.map coerceProduct
      = some (coerceProduct (insertedProduct now input db))
    rw [List.filter_append]
    have h1 : db.products.filter (fun x => x.id == db.nextProductId) = [] :=
      List.filter_eq_nil_iff.mpr (fun x hx => by
        have hlt := hid.2.2.1 x hx
        simp only [beq_iff_eq]
        omega)
    rw [h1]
    simp [insertedProduct, List.filter_cons]
  · show (db.products ++ [insertedProduct now input db]).map coerceProduct = _
    rw [List.map_append]
    rfl

/-- C5 witness: price 19.99 (the fraction 1999/100) survives the
create / getById round trip on the empty store. -/
theorem C5_witness :
    (createProduct 11 sampleProductInput emptyDB).1.price
      = sampleProductInput.price ∧
    getProductById ⟨(createProduct 11 sampleProductInput emptyDB).1.id⟩
        (createProduct 11 sampleProductInput emptyDB).2
      = some (createProduct 11 sampleProductInput emptyDB).1 := by
  have h := C5_price_round_trip 11 sampleProductInput emptyDB 2
    (by decide) (by decide) (by decide)
  exact ⟨h.1, h.2.1⟩

/-- C6: every successful create returns the full record: the
storage-generated identity key (the table's next auto-increment value),
`created_at` and `updated_at` both set to the call time (hence
`created_at ≤ updated_at`), and the per-entity defaults applied to every
omitted optional field (User.role = user, User.is_active = true,
Category.is_active = true, Product.stock_quantity = 0,
Product.is_active = true, Order.status = pending). -/
theorem C6_create_defaults (now : Nat) (db : DB)
    (cu : CreateUserInput) (cc : CreateCategoryInput)
    (cp : CreateProductInput) (co : CreateOrderInput)
    (ci : CreateOrderItemInput) :
    ((createUser now cu db).1.id = db.nextUserId ∧
     (createUser now cu db).1.created_at = now ∧
     (createUser now cu db).1.updated_at = now ∧
     (createUser now cu db).1.created_at
       ≤ (createUser now cu db).1.updated_at ∧
     (cu.role = none → (createUser now cu db).1.role = Role.user) ∧
     (cu.is_active = none → (createUser now cu db).1.is_active = true)) ∧
    ((createCategory now cc db).1.id = db.nextCategoryId ∧
     (createCategory now cc db).1.created_at = now ∧
     (createCategory now cc db).1.updated_at = now ∧
     (createCategory now cc db).1.created_at
       ≤ (createCategory now cc db).1.updated_at ∧
     (cc.is_active = none → (createCategory now cc db).1.is_active = true)) ∧
    ((createProduct now cp db).1.id = db.nextProductId ∧
     (createProduct now cp db).1.created_at = now ∧
     (createProduct now cp db).1.updated_at = now ∧
     (createProduct now cp db).1.created_at
       ≤ (createProduct now cp db).1.updated_at ∧
     (cp.stock_quantity = none →
       (createProduct now cp db).1.stock_quantity = 0) ∧
     (cp.is_active = none → (createProduct now cp db).1.is_active = true)) ∧
    ((∃ x ∈ db.users, x.id = co.user_id) →
      createOrder now co db
        = .ok (coerceOrder (insertedOrder now co db),
          { db with orders := db.orders ++ [insertedOrder now co db]
                    nextOrderId := db.nextOrderId + 1 }) ∧
      (coerceOrder (insertedOrder now co db)).id = db.nextOrderId ∧
      (coerceOrder (insertedOrder now co db)).created_at = now ∧
      (coerceOrder (insertedOrder now co db)).updated_at = now ∧
      (co.status = none →
        (coerceOrder (insertedOrder now co db)).status
          = OrderStatus.pending)) ∧
    ((∃ x ∈ db.orders, x.id = ci.order_id) →
      (∃ x ∈ db.products, x.id = ci.product_id) →
      createOrderItem now ci db
        = .ok (coerceOrderItem (insertedOrderItem now ci db),
          { db with orderItems := db.orderItems ++ [insertedOrderItem now ci db]
                    nextOrderItemId := db.nextOrderItemId + 1 }) ∧
      (coerceOrderItem (insertedOrderItem now ci db)).id
        = db.nextOrderItemId ∧
      (coerceOrderItem (insertedOrderItem now ci db)).created_at = now) := by
  refine ⟨⟨rfl, rfl, rfl, le_refl _,
      fun h => by simp [createUser, insertedUser, h],
      fun h => by simp [createUser, insertedUser, h]⟩,
    ⟨rfl, rfl, rfl, le_refl _,
      fun h => by simp [createCategory, insertedCategory, h]⟩,
    ⟨rfl, rfl, rfl, le_refl _,
      fun h => by simp [createProduct, insertedProduct, coerceProduct, h],
      fun h => by simp [createProduct, insertedProduct, coerceProduct, h]⟩,
    ?_, ?_⟩
  · intro hex
    have hne : (selectById (·.id) co.user_id db.users).isEmpty = false :=
      selectById_isEmpty_false hex
    refine ⟨by simp [createOrder, hne], rfl, rfl, rfl,
      fun h => by simp [coerceOrder, insertedOrder, h]⟩
  · intro hexo hexp
    have hne1 : (selectById (·.id) ci.order_id db.orders).isEmpty = false :=
      selectById_isEmpty_false hexo
    have hne2 : (selectById (·.id) ci.product_id db.products).isEmpty = false :=
      selectById_isEmpty_false hexp
    exact ⟨by simp [createOrderItem, hne1, hne2], rfl, rfl⟩

/-- C6 witness: a create with the optional fields omitted returns the
defaults and the next auto-increment key. -/
theorem C6_witness :
    (createUser 11 minimalUserInput sampleDB).1.role = Role.user ∧
    (createUser 11 minimalUserInput sampleDB).1.is_active = true ∧
    (createUser 11 minimalUserInput sampleDB).1.id = 2 := by
  have h := (C6_create_defaults 11 sampleDB minimalUserInput
    ⟨"c", none, none⟩ ⟨"p", none, 1, none, none, none⟩
    ⟨1, none, 1, none⟩ ⟨1, 1, 1, 1, 1⟩).1
  exact ⟨h.2.2.2.2.1 rfl, h.2.2.2.2.2 rfl, h.1⟩

/-- C7: after every mutating operation, every stored row that carries
both timestamps still satisfies `created_at ≤ updated_at`; no update
ever reassigns an identity key or a `created_at` (the rowwise
`(id, created_at)` projection of each table is untouched, whether the
update succeeds or throws); and every successful update strictly
advances the target row's `updated_at` for the entities that carry
one. -/
theorem C7_invariants (now : Nat) (op : Op) (db : DB)
    (hts : db.tsInv) (hlt : db.timesLt now) :
    (applyOp now op db).tsInv ∧
    (∀ i : UpdateUserInput,
      (applyOp now (Op.updateUser i) db).users.map
          (fun r => (r.id, r.created_at))
        = db.users.map (fun r => (r.id, r.created_at))) ∧
    (∀ i : UpdateCategoryInput,
      (applyOp now (Op.updateCategory i) db).categories.map
          (fun r => (r.id, r.created_at))
        = db.categories.map (fun r => (r.id, r.created_at))) ∧
    (∀ i : UpdateProductInput,
      (applyOp now (Op.updateProduct i) db).products.map
          (fun r => (r.id, r.created_at))
        = db.products.map (fun r => (r.id, r.created_at))) ∧
    (∀ i : UpdateOrderInput,
      (applyOp now (Op.updateOrder i) db).orders.map
          (fun r => (r.id, r.created_at))
        = db.orders.map (fun r => (r.id, r.created_at))) ∧
    (∀ i : UpdateOrderItemInput,
      (applyOp now (Op.updateOrderItem i) db).orderItems.map
          (fun r => (r.id, r.created_at))
        = db.orderItems.map (fun r => (r.id, r.created_at))) ∧
    (∀ (i : UpdateUserInput) r, getUserById ⟨i.id⟩ db = some r →
      ∃ v db2, updateUser now i db = .ok (v, db2) ∧
        r.updated_at < v.updated_at ∧ v.created_at = r.created_at ∧
        v.created_at ≤ v.updated_at ∧ v.id = r.id) ∧
    (∀ (i : UpdateCategoryInput) r, getCategoryById ⟨i.id⟩ db = some r →
      ∃ v db2, updateCategory now i db = .ok (v, db2) ∧
        r.updated_at < v.updated_at ∧ v.created_at = r.created_at ∧
        v.created_at ≤ v.updated_at ∧ v.id = r.id) ∧
    (∀ (i : UpdateProductInput) r,
      (selectById (·.id) i.id db.products).head? = some r →
      ∃ v db2, updateProduct now i db = .ok (v, db2) ∧
        r.updated_at < v.updated_at ∧ v.created_at = r.created_at ∧
        v.created_at ≤ v.updated_at ∧ v.id = r.id) ∧
    (∀ (i : UpdateOrderInput) r,
      (∀ uid ∈ i.user_id, ∃ x ∈ db.users, x.id = uid) →
      (selectById (·.id) i.id db.orders).head? = some r →
      ∃ v db2, updateOrder now i db = .ok (v, db2) ∧
        r.updated_at < v.updated_at ∧ v.created_at = r.created_at ∧
        v.created_at ≤ v.updated_at ∧ v.id = r.id) := by
  refine ⟨?_, ?_, ?_, ?_, ?_, ?_, ?_, ?_, ?_, ?_⟩
  · cases op with
    | createUser i =>
        refine ⟨?_, hts.2.1, hts.2.2.1, hts.2.2.2⟩
        intro r hr
        rcases List.mem_append.mp hr with h | h
        · exact hts.1 r h
        · rw [List.mem_singleton.mp h]
          exact le_refl now
    | updateUser i =>
        cases hres : updateUser now i db with
        | error e => simpa only [applyOp, hres] using hts
        | ok pr =>
            obtain ⟨v, db2⟩ := pr
            have hinv := updateUser_ok_inv hres
            simp only [applyOp, hres]
            rw [hinv]
            refine ⟨?_, hts.2.1, hts.2.2.1, hts.2.2.2⟩
            refine forall_mem_update_map hts.1 (fun x hx _ => ?_)
            exact le_of_lt (hlt.1 x hx).1
    | deleteUser i =>
        cases hres : deleteUser i db with
        | error e => simpa only [applyOp, hres] using hts
        | ok pr =>
            obtain ⟨v, db2⟩ := pr
            have hinv := deleteUser_ok_inv hres
            simp only [applyOp, hres]
            rw [hinv]
            exact ⟨fun r hr => hts.1 r (List.mem_of_mem_filter hr),
              hts.2.1, hts.2.2.1, hts.2.2.2⟩
    | createCategory i =>
        refine ⟨hts.1, ?_, hts.2.2.1, hts.2.2.2⟩
        intro r hr
        rcases List.mem_append.mp hr with h | h
        · exact hts.2.1 r h
        · rw [List.mem_singleton.mp h]
          exact le_refl now
    | updateCategory i =>
        cases hres : updateCategory now i db with
        | error e => simpa only [applyOp, hres] using hts
        | ok pr =>
            obtain ⟨v, db2⟩ := pr
            have hinv := updateCategory_ok_inv hres
            simp only [applyOp, hres]
            rw [hinv]
            refine ⟨hts.1, ?_, hts.2.2.1, hts.2.2.2⟩
            refine forall_mem_update_map hts.2.1 (fun x hx _ => ?_)
            exact le_of_lt (hlt.2.1 x hx).1
    | deleteCategory i =>
        exact ⟨hts.1, fun r hr => hts.2.1 r (List.mem_of_mem_filter hr),
          hts.2.2.1, hts.2.2.2⟩
    | createProduct i =>
        refine ⟨hts.1, hts.2.1, ?_, hts.2.2.2⟩
        intro r hr
        rcases List.mem_append.mp hr with h | h
        · exact hts.2.2.1 r h
        · rw [List.mem_singleton.mp h]
          exact le_refl now
    | updateProduct i =>
        cases hres : updateProduct now i db with
        | error e => simpa only [applyOp, hres] using hts
        | ok pr =>
            obtain ⟨v, db2⟩ := pr
            have hinv := updateProduct_ok_inv hres
            simp only [applyOp, hres]
            rw [hinv]
            refine ⟨hts.1, hts.2.1, ?_, hts.2.2.2⟩
            refine forall_mem_update_map hts.2.2.1 (fun x hx _ => ?_)
            exact le_of_lt (hlt.2.2.1 x hx).1
    | deleteProduct i =>
        exact ⟨hts.1, hts.2.1,
          fun r hr => hts.2.2.1 r (List.mem_of_mem_filter hr), hts.2.2.2⟩
    | createOrder i =>
        cases hres : createOrder now i db with
        | error e => simpa only [applyOp, hres] using hts
        | ok pr =>
            obtain ⟨v, db2⟩ := pr
            have hinv := createOrder_ok_inv hres
            simp only [applyOp, hres]
            rw [hinv]
            refine ⟨hts.1, hts.2.1, hts.2.2.1, ?_⟩
            intro r hr
            rcases List.mem_append.mp hr with h | h
            · exact hts.2.2.2 r h
            · rw [List.mem_singleton.mp h]
              exact le_refl now
    | updateOrder i =>
        cases hres : updateOrder now i db with
        | error e => simpa only [applyOp, hres] using hts
        | ok pr =>
            obtain ⟨v, db2⟩ := pr
            have hinv := updateOrder_ok_inv hres
            simp only [applyOp, hres]
            rw [hinv]
            refine ⟨hts.1, hts.2.1, hts.2.2.1, ?_⟩
            refine forall_mem_update_map hts.2.2.2 (fun x hx _ => ?_)
            exact le_of_lt (hlt.2.2.2.1 x hx).1
    | deleteOrder i =>
        exact ⟨hts.1, hts.2.1, hts.2.2.1,
          fun r hr => hts.2.2.2 r (List.mem_of_mem_filter hr)⟩
    | createOrderItem i =>
        cases hres : createOrderItem now i db with
        | error e => simpa only [applyOp, hres] using hts
        | ok pr =>
            obtain ⟨v, db2⟩ := pr
            have hinv := createOrderItem_ok_inv hres
            simp only [applyOp, hres]
            rw [hinv]
            exact hts
    | updateOrderItem i =>
        cases hres : updateOrderItem i db with
        | error e => simpa only [applyOp, hres] using hts
        | ok pr =>
            obtain ⟨v, db2⟩ := pr
            have hinv := updateOrderItem_ok_inv hres
            simp only [applyOp, hres]
            rw [hinv]
            exact hts
    | deleteOrderItem i => exact hts
  · intro i
    cases hres : updateUser now i db with
    | error e => simp only [applyOp, hres]
    | ok pr =>
        obtain ⟨v, db2⟩ := pr
        have hinv := updateUser_ok_inv hres
        simp only [applyOp, hres]
        rw [hinv]
        exact map_update_eq (fun x => rfl)
  · intro i
    cases hres : updateCategory now i db with
    | error e => simp only [applyOp, hres]
    | ok pr =>
        obtain ⟨v, db2⟩ := pr
        have hinv := updateCategory_ok_inv hres
        simp only [applyOp, hres]
        rw [hinv]
        exact map_update_eq (fun x => rfl)
  · intro i
    cases hres : updateProduct now i db with
    | error e => simp only [applyOp, hres]
    | ok pr =>
        obtain ⟨v, db2⟩ := pr
        have hinv := updateProduct_ok_inv hres
        simp only [applyOp, hres]
        rw [hinv]
        exact map_update_eq (fun x => rfl)
  · intro i
    cases hres : updateOrder now i db with
    | error e => simp only [applyOp, hres]
    | ok pr =>
        obtain ⟨v, db2⟩ := pr
        have hinv := updateOrder_ok_inv hres
        simp only [applyOp, hres]
        rw [hinv]
        exact map_update_eq (fun x => rfl)
  · intro i
    cases hres : updateOrderItem i db with
    | error e => simp only [applyOp, hres]
    | ok pr =>
        obtain ⟨v, db2⟩ := pr
        have hinv := updateOrderItem_ok_inv hres
        simp only [applyOp, hres]
        rw [hinv]
        exact map_update_eq (fun x => rfl)
  · intro i r hr
    have hmem := selectById_head?_some hr
    exact ⟨userMerge now i r, _, updateUser_found hr,
      (hlt.1 r hmem.1).2, rfl, le_of_lt (hlt.1 r hmem.1).1, rfl⟩
  · intro i r hr
    have hmem := selectById_head?_some hr
    exact ⟨categoryMerge now i r, _, updateCategory_found hr,
      (hlt.2.1 r hmem.1).2, rfl, le_of_lt (hlt.2.1 r hmem.1).1, rfl⟩
  · intro i r hr
    have hmem := selectById_head?_some hr
    exact ⟨coerceProduct (productMerge now i r), _, updateProduct_found hr,
      (hlt.2.2.1 r hmem.1).2, rfl, le_of_lt (hlt.2.2.1 r hmem.1).1, rfl⟩
  · intro i r huser hr
    have hmem := selectById_head?_some hr
    have hgo : updateOrder now i db = updateOrderGo now i db := by
      cases huid : i.user_id with
      | none => simp [updateOrder, huid]
      | some uid =>
          have hne : (selectById (·.id) uid db.users).isEmpty = false :=
            selectById_isEmpty_false (huser uid (by simp [huid]))
          simp [updateOrder, huid, hne]
    exact ⟨coerceOrder (orderMerge now i r), _,
      hgo.trans (updateOrderGo_found hr),
      (hlt.2.2.2.1 r hmem.1).2, rfl, le_of_lt (hlt.2.2.2.1 r hmem.1).1, rfl⟩

/-- C7 witness: one concrete mutation preserving the invariant, plus a
successful update strictly advancing `updated_at`. -/
theorem C7_witness :
    (applyOp 11 (Op.updateUser partialUserUpdate) sampleDB).tsInv ∧
    ∃ v db2, updateUser 11 partialUserUpdate sampleDB = .ok (v, db2) ∧
      sampleUser.updated_at < v.updated_at := by
  have h := C7_invariants 11 (Op.updateUser partialUserUpdate) sampleDB
    (by decide) (by decide)
  obtain ⟨v, db2, hok, hadv, -⟩ :=
    h.2.2.2.2.2.2.1 partialUserUpdate sampleUser rfl
  exact ⟨h.1, v, db2, hok, hadv⟩

/-- The value a successful `createOrder` returns. -/
theorem createOrder_ok_val {now : Nat} {i : CreateOrderInput} {db : DB}
    {v : Order} {db2 : DB} (h : createOrder now i db = .ok (v, db2)) :
    v = coerceOrder (insertedOrder now i db) := by
  unfold createOrder at h
  split at h
  · simp at h
  · simp only [Except.ok.injEq, Prod.mk.injEq] at h
    exact h.1.symm

/-- A `createOrder` whose referenced user exists succeeds and appends
the defaulted row under the next auto-increment key. -/
theorem createOrder_ok_of_user {now : Nat} {i : CreateOrderInput} {db : DB}
    (hex : ∃ x ∈ db.users, x.id = i.user_id) :
    createOrder now i db
      = .ok (coerceOrder (insertedOrder now i db),
        { db with orders := db.orders ++ [insertedOrder now i db]
                  nextOrderId := db.nextOrderId + 1 }) := by
  have hne : (selectById (·.id) i.user_id db.users).isEmpty = false :=
    selectById_isEmpty_false hex
  simp [createOrder, hne]

/-- A `createOrderItem` whose references both exist succeeds and
appends the row under the next auto-increment key. -/
theorem createOrderItem_ok_of_refs {now : Nat} {i : CreateOrderItemInput}
    {db : DB} (hexo : ∃ x ∈ db.orders, x.id = i.order_id)
    (hexp : ∃ x ∈ db.products, x.id = i.product_id) :
    createOrderItem now i db
      = .ok (coerceOrderItem (insertedOrderItem now i db),
        { db with orderItems := db.orderItems ++ [insertedOrderItem now i db]
                  nextOrderItemId := db.nextOrderItemId + 1 }) := by
  have hne1 : (selectById (·.id) i.order_id db.orders).isEmpty = false :=
    selectById_isEmpty_false hexo
  have hne2 : (selectById (·.id) i.product_id db.products).isEmpty = false :=
    selectById_isEmpty_false hexp
  simp [createOrderItem, hne1, hne2]

/-- C9: `create` is not idempotent.  Invoking it twice with the same
input appends two distinct rows whose storage-generated keys differ,
and neither key was assigned to any pre-existing row. -/
theorem C9_create_not_idempotent (now1 now2 : Nat) (db : DB)
    (hid : db.idInv) (cu : CreateUserInput) (cc : CreateCategoryInput)
    (cp : CreateProductInput) (co : CreateOrderInput)
    (ci : CreateOrderItemInput) :
    ((createUser now2 cu (createUser now1 cu db).2).2.users
        = db.users ++ [(createUser now1 cu db).1,
            (createUser now2 cu (createUser now1 cu db).2).1] ∧
      (createUser now1 cu db).1.id
        ≠ (createUser now2 cu (createUser now1 cu db).2).1.id ∧
      (∀ r ∈ db.users, r.id ≠ (createUser now1 cu db).1.id ∧
        r.id ≠ (createUser now2 cu (createUser now1 cu db).2).1.id)) ∧
    ((createCategory now2 cc (createCategory now1 cc db).2).2.categories
        = db.categories ++ [(createCategory now1 cc db).1,
            (createCategory now2 cc (createCategory now1 cc db).2).1] ∧
      (createCategory now1 cc db).1.id
        ≠ (createCategory now2 cc (createCategory now1 cc db).2).1.id ∧
      (∀ r ∈ db.categories, r.id ≠ (createCategory now1 cc db).1.id ∧
        r.id ≠ (createCategory now2 cc (createCategory now1 cc db).2).1.id)) ∧
    ((createProduct now2 cp (createProduct now1 cp db).2).2.products
        = db.products ++ [insertedProduct now1 cp db,
            insertedProduct now2 cp (createProduct now1 cp db).2] ∧
      (createProduct now1 cp db).1.id
        ≠ (createProduct now2 cp (createProduct now1 cp db).2).1.id ∧
      (∀ r ∈ db.products, r.id ≠ (createProduct now1 cp db).1.id ∧
        r.id ≠ (createProduct now2 cp (createProduct now1 cp db).2).1.id)) ∧
    ((∃ x ∈ db.users, x.id = co.user_id) →
      ∃ o1 db1 o2 db2, createOrder now1 co db = .ok (o1, db1) ∧
        createOrder now2 co db1 = .ok (o2, db2) ∧
        o1.id ≠ o2.id ∧
        db2.orders.length = db.orders.length + 2 ∧
        (∀ r ∈ db.orders, r.id ≠ o1.id ∧ r.id ≠ o2.id)) ∧
    ((∃ x ∈ db.orders, x.id = ci.order_id) →
      (∃ x ∈ db.products, x.id = ci.product_id) →
      ∃ t1 db1 t2 db2, createOrderItem now1 ci db = .ok (t1, db1) ∧
        createOrderItem now2 ci db1 = .ok (t2, db2) ∧
        t1.id ≠ t2.id ∧
        db2.orderItems.length = db.orderItems.length + 2 ∧
        (∀ r ∈ db.orderItems, r.id ≠ t1.id ∧ r.id ≠ t2.id)) := by
  refine ⟨⟨List.append_assoc db.users _ _, ?_, ?_⟩,
    ⟨List.append_assoc db.categories _ _, ?_, ?_⟩,
    ⟨List.append_assoc db.products _ _, ?_, ?_⟩, ?_, ?_⟩
  · show db.nextUserId ≠ db.nextUserId + 1
    omega
  · intro r hr
    have := hid.1 r hr
    constructor
    · show r.id ≠ db.nextUserId
      omega
    · show r.id ≠ db.nextUserId + 1
      omega
  · show db.nextCategoryId ≠ db.nextCategoryId + 1
    omega
  · intro r hr
    have := hid.2.1 r hr
    constructor
    · show r.id ≠ db.nextCategoryId
      omega
    · show r.id ≠ db.nextCategoryId + 1
      omega
  · show db.nextProductId ≠ db.nextProductId + 1
    omega
  · intro r hr
    have := hid.2.2.1 r hr
    constructor
    · show r.id ≠ db.nextProductId
      omega
    · show r.id ≠ db.nextProductId + 1
      omega
  · intro hex
    have hok1 := @createOrder_ok_of_user now1 _ _ hex
    have hex2 : ∃ x ∈ ({ db with
        orders := db.orders ++ [insertedOrder now1 co db],
        nextOrderId := db.nextOrderId + 1 } : DB).users, x.id = co.user_id :=
      hex
    have hok2 := @createOrder_ok_of_user now2 _ _ hex2
    refine ⟨_, _, _, _, hok1, hok2, ?_, ?_, ?_⟩
    · show db.nextOrderId ≠ db.nextOrderId + 1
      omega
    · show ((db.orders ++ [insertedOrder now1 co db]) ++ [_]).length
        = db.orders.length + 2
      simp
    · intro r hr
      have := hid.2.2.2.1 r hr
      constructor
      · show r.id ≠ db.nextOrderId
        omega
      · show r.id ≠ db.nextOrderId + 1
        omega
  · intro hexo hexp
    have hok1 := @createOrderItem_ok_of_refs now1 _ _ hexo hexp
    have hexo2 : ∃ x ∈ ({ db with
        orderItems := db.orderItems ++ [insertedOrderItem now1 ci db],
        nextOrderItemId := db.nextOrderItemId + 1 } : DB).orders,
        x.id = ci.order_id := hexo
    have hexp2 : ∃ x ∈ ({ db with
        orderItems := db.orderItems ++ [insertedOrderItem now1 ci db],
        nextOrderItemId := db.nextOrderItemId + 1 } : DB).products,
        x.id = ci.product_id := hexp
    have hok2 := @createOrderItem_ok_of_refs now2 _ _ hexo2 hexp2
    refine ⟨_, _, _, _, hok1, hok2, ?_, ?_, ?_⟩
    · show db.nextOrderItemId ≠ db.nextOrderItemId + 1
      omega
    · show ((db.orderItems ++ [insertedOrderItem now1 ci db]) ++ [_]).length
        = db.orderItems.length + 2
      simp
    · intro r hr
      have := hid.2.2.2.2 r hr
      constructor
      · show r.id ≠ db.nextOrderItemId
        omega
      · show r.id ≠ db.nextOrderItemId + 1
        omega

/-- C9 witness: creating the same user twice on the sample store yields
ids 2 and 3 and appends both rows. -/
theorem C9_witness :
    (createUser 12 minimalUserInput
        (createUser 11 minimalUserInput sampleDB).2).2.users
      = sampleDB.users ++ [(createUser 11 minimalUserInput sampleDB).1,
          (createUser 12 minimalUserInput
            (createUser 11 minimalUserInput sampleDB).2).1] ∧
    (createUser 11 minimalUserInput sampleDB).1.id
      ≠ (createUser 12 minimalUserInput
          (createUser 11 minimalUserInput sampleDB).2).1.id := by
  have h := (C9_create_not_idempotent 11 12 sampleDB (by decide)
    minimalUserInput ⟨"c", none, none⟩ ⟨"p", none, 1, none, none, none⟩
    ⟨1, none, 1, none⟩ ⟨1, 1, 1, 1, 1⟩).1
  exact ⟨h.1, h.2.1⟩

/-- C10: the create handlers pass optional text through `x || null`, so
an empty-string `description`/`notes` is persisted and returned as
`null`; the update handlers apply a provided value verbatim, so the
same empty string is persisted and returned unchanged. -/
theorem C10_empty_text (now : Nat) (db : DB)
    (cc : CreateCategoryInput) (cp : CreateProductInput)
    (co : CreateOrderInput) (uc : UpdateCategoryInput)
    (up : UpdateProductInput) (uo : UpdateOrderInput) :
    (cc.description = some (some "") →
      (createCategory now cc db).1.description = none) ∧
    (cp.description = some (some "") →
      (createProduct now cp db).1.description = none) ∧
    (co.notes = some (some "") →
      ∀ o db2, createOrder now co db = .ok (o, db2) → o.notes = none) ∧
    (uc.description = some (some "") →
      ∀ r, getCategoryById ⟨uc.id⟩ db = some r →
      ∃ v db2, updateCategory now uc db = .ok (v, db2) ∧
        v.description = some "") ∧
    (up.description = some (some "") →
      ∀ r, (selectById (·.id) up.id db.products).head? = some r →
      ∃ v db2, updateProduct now up db = .ok (v, db2) ∧
        v.description = some "") ∧
    (uo.notes = some (some "") → uo.user_id = none →
      ∀ r, (selectById (·.id) uo.id db.orders).head? = some r →
      ∃ v db2, updateOrder now uo db = .ok (v, db2) ∧
        v.notes = some "") := by
  refine ⟨?_, ?_, ?_, ?_, ?_, ?_⟩
  · intro h
    simp [createCategory, insertedCategory, jsOrNullStr, h]
  · intro h
    simp [createProduct, insertedProduct, coerceProduct, jsOrNullStr, h]
  · intro h o db2 hok
    rw [createOrder_ok_val hok]
    simp [coerceOrder, insertedOrder, jsOrNullStr, h]
  · intro h r hr
    exact ⟨categoryMerge now uc r, _, updateCategory_found hr,
      by simp [categoryMerge, h]⟩
  · intro h r hr
    exact ⟨coerceProduct (productMerge now up r), _, updateProduct_found hr,
      by simp [coerceProduct, productMerge, h]⟩
  · intro h hnone r hr
    have hgo : updateOrder now uo db = updateOrderGo now uo db := by
      simp [updateOrder, hnone]
    exact ⟨coerceOrder (orderMerge now uo r), _,
      hgo.trans (updateOrderGo_found hr),
      by simp [coerceOrder, orderMerge, h]⟩

/-- C10 witness: creating a category with description `""` stores
`null`; updating the stored category with description `""` stores
`""`. -/
theorem C10_witness :
    (createCategory 11 emptyDescCreateCategory sampleDB).1.description
      = none ∧
    ∃ v db2, updateCategory 11 emptyDescUpdateCategory sampleDB
        = .ok (v, db2) ∧ v.description = some "" := by
  have h := C10_empty_text 11 sampleDB emptyDescCreateCategory
    ⟨"p", none, 1, none, none, none⟩ ⟨1, none, 1, none⟩
    emptyDescUpdateCategory ⟨1, none, none, none, none, none, none⟩
    ⟨1, none, none, none, none⟩
  exact ⟨h.1 rfl, h.2.2.2.1 rfl sampleCategory rfl⟩

end CrudModel
